import Mathlib

/-!
Shallow embedding of the sale-transaction and stock-ledger workflow of the
fabric retail application (backend/routes/staff.js together with the mongoose
models backend/models/Product.js, backend/models/Sale.js and
backend/models/StockHistory.js).

Modelling conventions:
 - Mongo object ids are natural numbers.
 - JavaScript numbers that the workflow does arithmetic on (stock levels,
   quantities, prices, amounts) are modelled as exact rationals.
 - The document store is a record of association lists; a mongoose save with a
   schema violation (a field below its declared minimum, a missing required
   string, a value outside a declared enum) fails, which the route handler
   catches and converts to an HTTP 500 response.
 - Randomness and the clock are passed in explicitly: the sale handler receives
   the current date and a stream of draws of Math.floor(Math.random() * 1000),
   indexed by how many draws have happened so far.
-/

/-- Calendar date as produced by the JavaScript Date accessors getFullYear,
getMonth (plus one) and getDate. -/
structure SaleDate where
  year : Nat
  month : Nat
  day : Nat
deriving Repr, DecidableEq

/-- Product document (backend/models/Product.js). -/
structure Product where
  name : String
  category : String
  description : Option String
  totalStock : ℚ
  currentStock : ℚ
  unit : String
  pricePerUnit : ℚ
  minStockLevel : ℚ
  isActive : Bool
  addedBy : Nat
deriving Repr, DecidableEq

/-- Embedded sale line item (saleItemSchema in backend/models/Sale.js). -/
structure SaleItem where
  product : Nat
  productName : String
  quantity : ℚ
  unitPrice : ℚ
  totalPrice : ℚ
  unit : String
deriving Repr, DecidableEq

/-- Sale document (backend/models/Sale.js). -/
structure Sale where
  id : Nat
  saleNumber : String
  customerName : String
  customerPhone : Option String
  items : List SaleItem
  totalAmount : ℚ
  discount : ℚ
  finalAmount : ℚ
  paymentMethod : String
  status : String
  soldBy : Nat
  saleDate : SaleDate
  notes : Option String
deriving Repr, DecidableEq

/-- Stock ledger entry (backend/models/StockHistory.js). -/
structure StockHistory where
  product : Nat
  productName : String
  action : String
  quantity : ℚ
  previousStock : ℚ
  newStock : ℚ
  unit : String
  performedBy : Nat
  sale : Option Nat
  notes : String
deriving Repr, DecidableEq

/-- The document store: products, sales and the stock ledger, plus the user
collection (id to name, all the workflow reads of a user) and the id the next
inserted sale receives. -/
structure Store where
  products : List (Nat × Product)
  sales : List Sale
  users : List (Nat × String)
  history : List StockHistory
  nextSaleId : Nat
deriving Repr, DecidableEq

/-- One line item of a POST /sales request body.  Besides the two fields the
handler reads (productId, quantity) the client may send price fields of its
own; the handler never looks at them. -/
structure SaleItemReq where
  productId : Nat
  quantity : ℚ
  clientUnitPrice : Option ℚ
  clientTotalPrice : Option ℚ
deriving Repr, DecidableEq

/-- POST /sales request body (after JSON decoding).  Optional fields are
absent when the client did not send them. -/
structure SaleReq where
  customerName : String
  customerPhone : Option String
  items : List SaleItemReq
  discount : Option ℚ
  paymentMethod : Option String
  notes : Option String
deriving Repr, DecidableEq

/-- Response of the POST /sales handler: HTTP status, the message field of the
JSON body, the errors array of a field-validation failure, the sale object of
a 201 body, and the store as left behind by the request. -/
structure SaleResponse where
  status : Nat
  message : String
  errors : List String
  sale : Option Sale
  store : Store
deriving Repr, DecidableEq

/-- Product.findById: first product with the given id. -/
def Product.findById (st : Store) (pid : Nat) : Option Product :=
  (st.products.find? (fun e => e.1 == pid)).map Prod.snd

/-- Mongoose save of a changed product document writes it back under its id. -/
def updateProduct (st : Store) (pid : Nat) (p : Product) : Store :=
  { st with products := st.products.map (fun e => if e.1 == pid then (pid, p) else e) }

/-- User lookup used by populate of soldBy with the name field. -/
def findUser (st : Store) (uid : Nat) : Option String :=
  (st.users.find? (fun e => e.1 == uid)).map Prod.snd

/-- Sale.findById: first sale with the given id. -/
def Sale.findById (st : Store) (sid : Nat) : Option Sale :=
  st.sales.find? (fun s => s.id == sid)

/-- Schema validation of a product document on save (backend/models/Product.js):
numeric fields respect their min 0 bounds, name is required and the enum
fields hold a declared value. -/
def productValid (p : Product) : Bool :=
  decide (0 ≤ p.totalStock) && decide (0 ≤ p.currentStock) &&
  decide (0 ≤ p.pricePerUnit) && decide (0 ≤ p.minStockLevel) &&
  p.name != "" &&
  decide (p.category ∈ ["ankara", "german_wool", "cotton", "silk", "linen", "other"]) &&
  decide (p.unit ∈ ["yards", "meters", "pieces"])

/-- Schema validation of a sale document on save (backend/models/Sale.js). -/
def saleValid (s : Sale) : Bool :=
  s.saleNumber != "" && s.customerName != "" &&
  decide (0 ≤ s.totalAmount) && decide (0 ≤ s.discount) && decide (0 ≤ s.finalAmount) &&
  decide (s.paymentMethod ∈ ["cash", "card", "transfer", "credit"]) &&
  decide (s.status ∈ ["completed", "pending", "cancelled"]) &&
  s.items.all (fun i =>
    i.productName != "" && decide ((1 : ℚ)/10 ≤ i.quantity) &&
    decide (0 ≤ i.unitPrice) && decide (0 ≤ i.totalPrice))

/-- Schema validation of a stock ledger entry on save
(backend/models/StockHistory.js): previousStock and newStock have min 0,
productName is required, action must be a declared value. -/
def historyValid (h : StockHistory) : Bool :=
  h.productName != "" &&
  decide (h.action ∈ ["added", "sold", "adjusted"]) &&
  decide (0 ≤ h.previousStock) && decide (0 ≤ h.newStock)

/-- Field validation the express-validator chain on POST /sales performs, in
declaration order, collecting the message of every failed validator.  The
isMongoId check on productId cannot fail in this embedding because ids are
already ids. -/
def reqValidationErrors (req : SaleReq) : List String :=
  (if req.customerName.trim.length < 2 then ["Customer name must be at least 2 characters"] else []) ++
  (match req.customerPhone with
    | some p => if 15 < p.length then ["Phone number must be at most 15 characters"] else []
    | none => []) ++
  (if req.items.isEmpty then ["At least one item is required"] else []) ++
  (req.items.filterMap (fun it =>
    if it.quantity < (1 : ℚ)/10 then some "Quantity must be greater than 0" else none)) ++
  (match req.discount with
    | some q => if q < 0 then ["Discount must be non-negative"] else []
    | none => []) ++
  (match req.paymentMethod with
    | some pm => if pm ∈ ["cash", "card", "transfer", "credit"] then [] else ["Invalid payment method"]
    | none => [])

/-- Insufficient-stock message of the validation loop of the POST /sales
handler (staff.js line 65). -/
def insufficientMsg (p : Product) : String :=
  "Insufficient stock for " ++ p.name ++ ". Available: " ++ toString p.currentStock ++ " " ++ p.unit

/-- Validation loop of the POST /sales handler (staff.js lines 52 to 80):
walks the requested items in order, accumulating the running total and the
sale line items, and stops at the first failed check. -/
def buildSaleItems (st : Store) (acc : ℚ) (done : List SaleItem) :
    List SaleItemReq → Except String (ℚ × List SaleItem)
  | [] => .ok (acc, done)
  | it :: rest =>
    match Product.findById st it.productId with
    | none => .error ("Product not found: " ++ toString it.productId)
    | some product =>
      if product.isActive = false then
        .error ("Product is not available: " ++ product.name)
      else if product.currentStock < it.quantity then
        .error (insufficientMsg product)
      else
        let itemTotal := it.quantity * product.pricePerUnit
        buildSaleItems st (acc + itemTotal)
          (done ++ [{ product := it.productId, productName := product.name,
                      quantity := it.quantity, unitPrice := product.pricePerUnit,
                      totalPrice := itemTotal, unit := product.unit }]) rest

/-- JavaScript String.prototype.padStart with the pad character 0. -/
def padStart0 (len : Nat) (s : String) : String :=
  if len ≤ s.length then s else String.mk (List.replicate (len - s.length) '0') ++ s

/-- Sale number candidate: the RF prefix, the zero-padded date components and
a zero-padded random suffix (staff.js lines 95 to 100, also the pre-save hook
of Sale.js lines 95 to 100). -/
def mkSaleNumber (d : SaleDate) (r : Nat) : String :=
  "RF" ++ toString d.year ++ padStart0 2 (toString d.month) ++
    padStart0 2 (toString d.day) ++ padStart0 3 (toString r)

/-- Sale number generation loop of the POST /sales handler (staff.js lines 93
to 107): a do-while that draws a fresh suffix, counts the attempt, exits on a
candidate no existing sale carries, and otherwise repeats while fewer than ten
attempts have happened.  Returns the attempts counter and the last candidate.
The fuel argument only feeds the termination checker; the loop is always
entered with fuel 10, matching maxAttempts. -/
def saleNumberLoop (sales : List Sale) (d : SaleDate) (rand : Nat → Nat) :
    Nat → Nat → Nat × String
  | attempts, 0 => (attempts, mkSaleNumber d (rand attempts))
  | attempts, fuel + 1 =>
    let candidate := mkSaleNumber d (rand attempts)
    if (sales.find? (fun s => s.saleNumber == candidate)).isNone then
      (attempts + 1, candidate)
    else if attempts + 1 < 10 then
      saleNumberLoop sales d rand (attempts + 1) fuel
    else
      (attempts + 1, candidate)

/-- Pre-save hook of the Sale model (Sale.js lines 93 to 103): when the
document carries no sale number yet, one is generated from the current date
and one fresh random draw, with no uniqueness check against the store. -/
def preSaveHook (s : Sale) (d : SaleDate) (r : Nat) : Sale :=
  if s.saleNumber = "" then { s with saleNumber := mkSaleNumber d r } else s

/-- Stock decrement and ledger loop of the POST /sales handler (staff.js lines
135 to 157): for each sale line item, re-fetch the product, decrement its
stock, save it, then append one sold ledger entry.  A failed save surfaces the
generic catch-all message and leaves every earlier write committed. -/
def processItems (customerName : String) (userId saleId : Nat) :
    Store → List SaleItem → Except (Store × String) Store
  | st, [] => .ok st
  | st, item :: rest =>
    match Product.findById st item.product with
    | none => .error (st, "Server error during sale")
    | some product =>
      let previousStock := product.currentStock
      let product2 := { product with currentStock := product.currentStock - item.quantity }
      if productValid product2 then
        let st1 := updateProduct st item.product product2
        let entry : StockHistory :=
          { product := item.product, productName := product2.name, action := "sold",
            quantity := item.quantity, previousStock := previousStock,
            newStock := product2.currentStock, unit := product2.unit,
            performedBy := userId, sale := some saleId,
            notes := "Sold to " ++ customerName }
        if historyValid entry then
          processItems customerName userId saleId
            { st1 with history := st1.history ++ [entry] } rest
        else
          .error (st1, "Server error during sale")
      else
        .error (st, "Server error during sale")

/-- POST /sales handler (staff.js lines 31 to 172).  The acting user is the
authenticated requester; d and rand supply the clock and the random draws. -/
def createSale (st : Store) (req : SaleReq) (userId : Nat) (d : SaleDate)
    (rand : Nat → Nat) : SaleResponse :=
  let errs := reqValidationErrors req
  if errs.isEmpty = false then
    { status := 400, message := "", errors := errs, sale := none, store := st }
  else
    match buildSaleItems st 0 [] req.items with
    | .error m => { status := 400, message := m, errors := [], sale := none, store := st }
    | .ok (totalAmount, saleItems) =>
      let discount := req.discount.getD 0
      let finalAmount := totalAmount - discount
      if finalAmount < 0 then
        { status := 400, message := "Discount cannot exceed total amount", errors := [],
          sale := none, store := st }
      else
        let res := saleNumberLoop st.sales d rand 0 10
        if 10 ≤ res.1 then
          { status := 500, message := "Could not generate unique sale number", errors := [],
            sale := none, store := st }
        else
          let sale0 : Sale :=
            { id := st.nextSaleId, saleNumber := res.2,
              customerName := req.customerName.trim,
              customerPhone := req.customerPhone.map String.trim,
              items := saleItems, totalAmount := totalAmount, discount := discount,
              finalAmount := finalAmount, paymentMethod := req.paymentMethod.getD "cash",
              status := "completed", soldBy := userId, saleDate := d,
              notes := req.notes.map String.trim }
          let sale := preSaveHook sale0 d (rand res.1)
          if saleValid sale then
            let st1 := { st with sales := st.sales ++ [sale], nextSaleId := st.nextSaleId + 1 }
            match processItems req.customerName.trim userId sale.id st1 saleItems with
            | .ok st2 =>
              { status := 201, message := "Sale completed successfully", errors := [],
                sale := Sale.findById st2 sale.id, store := st2 }
            | .error (stPartial, m) =>
              { status := 500, message := m, errors := [], sale := none, store := stPartial }
          else
            { status := 500, message := "Server error during sale", errors := [], sale := none,
              store := st }

/-- Flattened receipt projection built by GET /sales/:id/receipt (staff.js
lines 235 to 251). -/
structure Receipt where
  saleNumber : String
  date : SaleDate
  customerName : String
  customerPhone : Option String
  items : List SaleItem
  subtotal : ℚ
  discount : ℚ
  finalAmount : ℚ
  paymentMethod : String
  soldByName : String
  notes : Option String
deriving Repr, DecidableEq

/-- Response of GET /sales/:id/receipt. -/
structure ReceiptResponse where
  status : Nat
  message : String
  receipt : Option Receipt
deriving Repr, DecidableEq

/-- GET /sales/:id/receipt handler (staff.js lines 221 to 258): find the sale
owned by the requesting seller, 404 when absent, then flatten the stored
fields.  A missing seller document would make the populated name access throw,
caught as a 500. -/
def getReceipt (st : Store) (sid : Nat) (userId : Nat) : ReceiptResponse :=
  match st.sales.find? (fun s => s.id == sid && s.soldBy == userId) with
  | none => { status := 404, message := "Sale not found", receipt := none }
  | some sale =>
    match findUser st sale.soldBy with
    | none => { status := 500, message := "Server error", receipt := none }
    | some sellerName =>
      { status := 200, message := "",
        receipt := some
          { saleNumber := sale.saleNumber, date := sale.saleDate,
            customerName := sale.customerName, customerPhone := sale.customerPhone,
            items := sale.items, subtotal := sale.totalAmount, discount := sale.discount,
            finalAmount := sale.finalAmount, paymentMethod := sale.paymentMethod,
            soldByName := sellerName, notes := sale.notes } }

/-- One requested item passes the three per-item checks of the validation
loop: the product exists, is active, and has at least the requested stock. -/
def itemOKb (st : Store) (it : SaleItemReq) : Bool :=
  match Product.findById st it.productId with
  | none => false
  | some p => p.isActive && decide (it.quantity ≤ p.currentStock)

/-- Line item the validation loop appends for one passing requested item
(junk fields when the product is absent, a case the lemmas exclude). -/
def builtItem (st : Store) (it : SaleItemReq) : SaleItem :=
  match Product.findById st it.productId with
  | some p =>
    { product := it.productId, productName := p.name, quantity := it.quantity,
      unitPrice := p.pricePerUnit, totalPrice := it.quantity * p.pricePerUnit,
      unit := p.unit }
  | none =>
    { product := it.productId, productName := "", quantity := it.quantity,
      unitPrice := 0, totalPrice := 0, unit := "" }

/-- Total amount the validation loop accumulates over a passing item list. -/
def totalOf (st : Store) (items : List SaleItemReq) : ℚ :=
  ((items.map (builtItem st)).map SaleItem.totalPrice).sum

/-- Ledger entry the decrement loop appends for one item, described against
the store as it stood when that item was processed. -/
def histOf (customerName : String) (userId saleId : Nat) (st : Store)
    (it : SaleItemReq) : StockHistory :=
  match Product.findById st it.productId with
  | some p =>
    { product := it.productId, productName := p.name, action := "sold",
      quantity := it.quantity, previousStock := p.currentStock,
      newStock := p.currentStock - it.quantity, unit := p.unit,
      performedBy := userId, sale := some saleId,
      notes := "Sold to " ++ customerName }
  | none =>
    { product := it.productId, productName := "", action := "sold",
      quantity := it.quantity, previousStock := 0, newStock := 0, unit := "",
      performedBy := userId, sale := some saleId,
      notes := "Sold to " ++ customerName }

/-- Error of the first failing per-item check, walking the items in request
order and, for each item, checking existence, then active, then stock.
Modelled from the spec wording of the precondition order; it also matches the
code and is the reference point of the fail-fast claim. -/
def firstItemError (st : Store) : List SaleItemReq → Option String
  | [] => none
  | it :: rest =>
    match Product.findById st it.productId with
    | none => some ("Product not found: " ++ toString it.productId)
    | some p =>
      if p.isActive = false then some ("Product is not available: " ++ p.name)
      else if p.currentStock < it.quantity then some (insufficientMsg p)
      else firstItemError st rest

/-- Modelled from the spec: the precondition order of section 4.2 of the
specification, as one function returning the message of the first check that
fails, or none.  Checks: items non-empty, then the per-item checks in request
order, then non-negative final amount. -/
def specFirstFailure (st : Store) (req : SaleReq) : Option String :=
  if req.items.isEmpty then some "At least one item is required"
  else
    match firstItemError st req.items with
    | some m => some m
    | none =>
      if totalOf st req.items - req.discount.getD 0 < 0 then
        some "Discount cannot exceed total amount"
      else none

/-- Modelled from the spec: the rounding that section 8 of the specification
asserts for the final amount, with the JavaScript Math.round semantics of
rounding half up. -/
def jsRound (q : ℚ) : ℤ := ⌊q + 1/2⌋

/-- Every stored product passes its schema validation. -/
def storeProductsValid (st : Store) : Bool :=
  st.products.all (fun e => productValid e.2)

/-- The field checks of the express-validator chain other than the items
non-empty check all pass. -/
def otherFieldChecksOK (req : SaleReq) : Bool :=
  decide (2 ≤ req.customerName.trim.length) &&
  (match req.customerPhone with
    | some p => decide (p.length ≤ 15)
    | none => true) &&
  req.items.all (fun it => decide ((1 : ℚ)/10 ≤ it.quantity)) &&
  (match req.discount with
    | some q => decide (0 ≤ q)
    | none => true) &&
  (match req.paymentMethod with
    | some pm => decide (pm ∈ ["cash", "card", "transfer", "credit"])
    | none => true)

/-- Shape check of a sale number: the RF prefix, then eight date digits, then
three suffix digits, thirteen characters in all. -/
def saleNumberFormatOk (s : String) : Bool :=
  s.data.length == 13 && s.data.take 2 == ['R', 'F'] &&
  (s.data.drop 2).all Char.isDigit

/-- Date whose components print with the widths the sale number pattern
expects: a four-digit year and at most two digits for month and day. -/
def dateOK (d : SaleDate) : Prop :=
  1000 ≤ d.year ∧ d.year < 10000 ∧ d.month < 100 ∧ d.day < 100

/-- States reachable by the sequential sale workflow: any store with no sales
yet, followed by any interleaving of sale requests and administrative edits of
the product catalog. -/
inductive Reachable : Store → Prop where
  | init : ∀ st : Store, st.sales = [] → Reachable st
  | sale : ∀ (st : Store) (req : SaleReq) (u : Nat) (d : SaleDate) (rand : Nat → Nat),
      Reachable st → Reachable (createSale st req u d rand).store
  | admin : ∀ (st : Store) (ps : List (Nat × Product)),
      Reachable st → Reachable { st with products := ps }

/-- Requested item lists agreeing on the fields the handler reads. -/
def itemsAgree : List SaleItemReq → List SaleItemReq → Bool
  | [], [] => true
  | a :: as, b :: bs =>
    a.productId == b.productId && decide (a.quantity = b.quantity) && itemsAgree as bs
  | _, _ => false

/-- Requests agreeing on every field the handler reads, leaving the
client-supplied price fields of the items unconstrained. -/
def reqAgrees (r1 r2 : SaleReq) : Bool :=
  r1.customerName == r2.customerName && r1.customerPhone == r2.customerPhone &&
  decide (r1.discount = r2.discount) && r1.paymentMethod == r2.paymentMethod &&
  r1.notes == r2.notes && itemsAgree r1.items r2.items

/-- Ledger entry the decrement loop appends for one sale line item, described
against the store as it stood when that item came up (junk fields when the
product is absent, a case the lemmas exclude). -/
def histOfItem (cn : String) (u sid : Nat) (st : Store) (si : SaleItem) : StockHistory :=
  match Product.findById st si.product with
  | some p =>
    { product := si.product, productName := p.name, action := "sold",
      quantity := si.quantity, previousStock := p.currentStock,
      newStock := p.currentStock - si.quantity, unit := p.unit,
      performedBy := u, sale := some sid, notes := "Sold to " ++ cn }
  | none =>
    { product := si.product, productName := "", action := "sold",
      quantity := si.quantity, previousStock := 0, newStock := 0, unit := "",
      performedBy := u, sale := some sid, notes := "Sold to " ++ cn }

/-- Decimal digit characters of a natural number, most significant first:
the reference shape of the output of the core decimal printer. -/
def natChars (n : Nat) : List Char :=
  if h : n / 10 = 0 then [Nat.digitChar (n % 10)]
  else
    have : n / 10 < n := Nat.div_lt_self (by omega) (by omega)
    natChars (n / 10) ++ [Nat.digitChar (n % 10)]

/-- Concrete catalog product used by the examples: ten yards of ankara at
500 per yard. -/
def fxProd : Product :=
  { name := "Ankara", category := "ankara", description := none, totalStock := 10,
    currentStock := 10, unit := "yards", pricePerUnit := 500, minStockLevel := 10,
    isActive := true, addedBy := 0 }

/-- Concrete requested item on product 1. -/
def fxItem (q : ℚ) : SaleItemReq :=
  { productId := 1, quantity := q, clientUnitPrice := none, clientTotalPrice := none }

/-- Concrete date. -/
def fxDate : SaleDate := { year := 2024, month := 3, day := 15 }

/-- Concrete store: product 1 in stock, no sales yet, one user. -/
def fxStore : Store :=
  { products := [(1, fxProd)], sales := [], users := [(7, "Jane"), (8, "Bob")],
    history := [], nextSaleId := 100 }

/-- Store with five yards in stock. -/
def fxStore5 : Store :=
  { fxStore with products := [(1, { fxProd with totalStock := 5, currentStock := 5 })] }

/-- Store with a unit price of five. -/
def fxStoreP5 : Store :=
  { fxStore with products := [(1, { fxProd with pricePerUnit := 5 })] }

/-- Request with one item of three yards. -/
def fxReqOne : SaleReq :=
  { customerName := "Amina Bello", customerPhone := none, items := [fxItem 3],
    discount := none, paymentMethod := none, notes := none }

/-- The same request with client-chosen price fields smuggled into the item. -/
def fxReqSpoof : SaleReq :=
  { fxReqOne with items :=
      [{ productId := 1, quantity := 3, clientUnitPrice := some 1,
         clientTotalPrice := some 1 }] }

/-- Request with two items on the same product, three and four yards. -/
def fxReqTwo : SaleReq :=
  { fxReqOne with items := [fxItem 3, fxItem 4] }

/-- Request with one item of half a yard. -/
def fxReqHalf : SaleReq :=
  { fxReqOne with items := [fxItem (1/2)] }

/-- Request asking for more than the available stock. -/
def fxReqExcess : SaleReq :=
  { fxReqOne with items := [fxItem 15] }

/-- Request whose first item names an unknown product and whose second item
exceeds the stock. -/
def fxReqMasked : SaleReq :=
  { fxReqOne with items :=
      [{ productId := 99, quantity := 1, clientUnitPrice := none, clientTotalPrice := none },
       fxItem 15] }

/-- Minimal pre-existing sale with a chosen sale number. -/
def fxBlankSale (n : String) (i : Nat) : Sale :=
  { id := i, saleNumber := n, customerName := "X Y", customerPhone := none, items := [],
    totalAmount := 0, discount := 0, finalAmount := 0, paymentMethod := "cash",
    status := "completed", soldBy := 7, saleDate := fxDate, notes := none }

/-- Store already holding sales whose numbers collide with the first nine
draws of the identity stream on fxDate. -/
def fxC4Store : Store :=
  { fxStore with sales :=
      (List.range 9).map (fun i => fxBlankSale (mkSaleNumber fxDate i) i) }

/-- Sale saved without a sale number, exercising the pre-save hook. -/
def fxNoNumSale : Sale := fxBlankSale "" 0

/-- Candidate freshness holds at the check an existing sale fails: one item of
the loop characterization.  The loop, entered so that attempts plus fuel is
ten, only reports fewer than ten attempts when it exited through the break on
a candidate no existing sale carries. -/
theorem saleNumberLoop_fresh (sales : List Sale) (d : SaleDate) (rand : Nat → Nat) :
    ∀ (fuel a : Nat), a + fuel = 10 →
    (saleNumberLoop sales d rand a fuel).1 < 10 →
    (sales.find? (fun s => s.saleNumber == (saleNumberLoop sales d rand a fuel).2)).isNone = true := by
  intro fuel
  induction fuel with
  | zero =>
    intro a hsum hlt
    simp only [saleNumberLoop] at hlt
    omega
  | succ n ih =>
    intro a hsum hlt
    simp only [saleNumberLoop] at hlt ⊢
    by_cases hfind : (sales.find? (fun s => s.saleNumber == mkSaleNumber d (rand a))).isNone = true
    · simp [hfind]
    · simp only [Bool.not_eq_true] at hfind
      by_cases hlt2 : a + 1 < 10
      · simp only [hfind, hlt2, if_true, if_false, Bool.false_eq_true] at hlt ⊢
        exact ih (a + 1) (by omega) hlt
      · simp only [hfind, hlt2, if_false, Bool.false_eq_true] at hlt

/-- The loop returns a candidate of the expected shape: some draw of the
stream, stamped with the supplied date. -/
theorem saleNumberLoop_shape (sales : List Sale) (d : SaleDate) (rand : Nat → Nat) :
    ∀ (fuel a : Nat), ∃ i, (saleNumberLoop sales d rand a fuel).2 = mkSaleNumber d (rand i) := by
  intro fuel
  induction fuel with
  | zero => intro a; exact ⟨a, rfl⟩
  | succ n ih =>
    intro a
    simp only [saleNumberLoop]
    by_cases hfind : (sales.find? (fun s => s.saleNumber == mkSaleNumber d (rand a))).isNone = true
    · exact ⟨a, by simp [hfind]⟩
    · simp only [Bool.not_eq_true] at hfind
      by_cases hlt2 : a + 1 < 10
      · simpa [hfind, hlt2] using ih (a + 1)
      · exact ⟨a, by simp [hfind, hlt2]⟩

/-- The attempts counter never exceeds the entry counter plus the fuel; with
fuel ten this bounds the loop at ten draws. -/
theorem saleNumberLoop_attempts_le (sales : List Sale) (d : SaleDate) (rand : Nat → Nat) :
    ∀ (fuel a : Nat), (saleNumberLoop sales d rand a fuel).1 ≤ a + fuel := by
  intro fuel
  induction fuel with
  | zero => intro a; simp [saleNumberLoop]
  | succ n ih =>
    intro a
    simp only [saleNumberLoop]
    by_cases hfind : (sales.find? (fun s => s.saleNumber == mkSaleNumber d (rand a))).isNone = true
    · simp [hfind]
    · simp only [Bool.not_eq_true] at hfind
      by_cases hlt2 : a + 1 < 10
      · simp only [hfind, hlt2, if_true, if_false, Bool.false_eq_true]
        have := ih (a + 1)
        omega
      · simp [hfind, hlt2]

/-- Exhaustion: when every candidate of the first nine draws collides with an
existing sale, the loop reports ten attempts, whatever the tenth draw finds. -/
theorem saleNumberLoop_exhaust (sales : List Sale) (d : SaleDate) (rand : Nat → Nat) :
    ∀ (fuel a : Nat), a + fuel = 10 →
    (∀ i, a ≤ i → i < 9 → (sales.find? (fun s => s.saleNumber == mkSaleNumber d (rand i))).isNone = false) →
    (saleNumberLoop sales d rand a fuel).1 = 10 := by
  intro fuel
  induction fuel with
  | zero =>
    intro a hsum _
    simpa [saleNumberLoop] using hsum
  | succ n ih =>
    intro a hsum hcoll
    simp only [saleNumberLoop]
    have ha : a < 9 ∨ a = 9 := by omega
    rcases ha with ha | ha
    · have hfind := hcoll a (Nat.le_refl a) ha
      by_cases hlt2 : a + 1 < 10
      · simp only [hfind, hlt2, if_true, if_false, Bool.false_eq_true]
        exact ih (a + 1) (by omega) (fun i h1 h2 => hcoll i (by omega) h2)
      · omega
    · subst ha
      by_cases hfind : (sales.find? (fun s => s.saleNumber == mkSaleNumber d (rand 9))).isNone = true
      · simp [hfind]
      · simp only [Bool.not_eq_true] at hfind
        simp [hfind]

/-- Success within the first nine draws: when the draw at the least fresh
index below nine yields a candidate no existing sale carries, the loop exits
there with that candidate. -/
theorem saleNumberLoop_success (sales : List Sale) (d : SaleDate) (rand : Nat → Nat) :
    ∀ (fuel a i : Nat), a + fuel = 10 → a ≤ i → i < 9 →
    (sales.find? (fun s => s.saleNumber == mkSaleNumber d (rand i))).isNone = true →
    (∀ j, a ≤ j → j < i → (sales.find? (fun s => s.saleNumber == mkSaleNumber d (rand j))).isNone = false) →
    saleNumberLoop sales d rand a fuel = (i + 1, mkSaleNumber d (rand i)) := by
  intro fuel
  induction fuel with
  | zero =>
    intro a i hsum hai hi _ _
    omega
  | succ n ih =>
    intro a i hsum hai hi hfresh hmin
    simp only [saleNumberLoop]
    rcases Nat.eq_or_lt_of_le hai with heq | hlt
    · subst heq
      simp [hfresh]
    · have hfind := hmin a (Nat.le_refl a) hlt
      have hlt2 : a + 1 < 10 := by omega
      simp only [hfind, hlt2, if_true, if_false, Bool.false_eq_true]
      exact ih (a + 1) i (by omega) (by omega) hi hfresh (fun j h1 h2 => hmin j (by omega) h2)

/-- The loop reads the stream only at the indices of its draws, all below
ten: two streams agreeing below ten produce the same outcome. -/
theorem saleNumberLoop_rand_congr (sales : List Sale) (d : SaleDate) (rand rand2 : Nat → Nat) :
    ∀ (fuel a : Nat), 1 ≤ fuel → a + fuel = 10 → (∀ i, i < 10 → rand i = rand2 i) →
    saleNumberLoop sales d rand a fuel = saleNumberLoop sales d rand2 a fuel := by
  intro fuel
  induction fuel with
  | zero =>
    intro a hfuel hsum hagree
    omega
  | succ n ih =>
    intro a hfuel hsum hagree
    simp only [saleNumberLoop]
    rw [hagree a (by omega)]
    by_cases hfind : (sales.find? (fun s => s.saleNumber == mkSaleNumber d (rand2 a))).isNone = true
    · simp [hfind]
    · simp only [Bool.not_eq_true] at hfind
      by_cases hlt2 : a + 1 < 10
      · simp only [hfind, hlt2, if_true, if_false, Bool.false_eq_true]
        exact ih (a + 1) (by omega) (by omega) hagree
      · simp [hfind, hlt2]

/-- Finding by id ignores every store field except the product list. -/
theorem findById_congr (st1 st2 : Store) (pid : Nat) (h : st1.products = st2.products) :
    Product.findById st1 pid = Product.findById st2 pid := by
  simp [Product.findById, h]

/-- Store fields other than the products are untouched by a product save. -/
theorem updateProduct_fields (st : Store) (pid : Nat) (p : Product) :
    (updateProduct st pid p).sales = st.sales ∧ (updateProduct st pid p).users = st.users ∧
    (updateProduct st pid p).history = st.history ∧
    (updateProduct st pid p).nextSaleId = st.nextSaleId := by
  simp [updateProduct]

theorem find?_update_self (l : List (Nat × Product)) (pid : Nat) (p' : Product) :
    (l.find? (fun e => e.1 == pid)).isSome = true →
    (l.map (fun e => if e.1 == pid then (pid, p') else e)).find? (fun e => e.1 == pid) =
      some (pid, p') := by
  induction l with
  | nil => intro h; simp at h
  | cons e t ih =>
    intro h
    by_cases he : (e.1 == pid) = true
    · rw [List.map_cons, if_pos he]
      simp [List.find?_cons]
    · have he2 : (e.1 == pid) = false := by simpa using he
      rw [List.map_cons, if_neg he]
      simp only [List.find?_cons, he2] at h ⊢
      exact ih h

theorem find?_update_other (l : List (Nat × Product)) (pid q : Nat) (p' : Product)
    (hne : q ≠ pid) :
    (l.map (fun e => if e.1 == pid then (pid, p') else e)).find? (fun e => e.1 == q) =
      l.find? (fun e => e.1 == q) := by
  induction l with
  | nil => simp
  | cons e t ih =>
    by_cases he : (e.1 == pid) = true
    · have h1 : e.1 = pid := by simpa using he
      have h2 : (e.1 == q) = false := by simp [h1]; omega
      have h3 : ((pid : Nat) == q) = false := by simp; omega
      rw [List.map_cons, if_pos he]
      simp only [List.find?_cons, h2, h3]
      exact ih
    · rw [List.map_cons, if_neg he]
      by_cases hq : (e.1 == q) = true
      · simp only [List.find?_cons, hq]
      · have hq2 : (e.1 == q) = false := by simpa using hq
        simp only [List.find?_cons, hq2]
        exact ih

/-- Saving a product leaves it the value found under its id. -/
theorem findById_updateProduct_self (st : Store) (pid : Nat) (p p' : Product)
    (h : Product.findById st pid = some p) :
    Product.findById (updateProduct st pid p') pid = some p' := by
  have hsome : (st.products.find? (fun e => e.1 == pid)).isSome = true := by
    simp only [Product.findById] at h
    cases hf : st.products.find? (fun e => e.1 == pid) with
    | none => rw [hf] at h; simp at h
    | some e => simp
  simp only [Product.findById, updateProduct]
  rw [find?_update_self st.products pid p' hsome]
  rfl

/-- Saving a product leaves every other id unchanged. -/
theorem findById_updateProduct_other (st : Store) (pid q : Nat) (p' : Product)
    (hne : q ≠ pid) :
    Product.findById (updateProduct st pid p') q = Product.findById st q := by
  simp only [Product.findById, updateProduct]
  rw [find?_update_other st.products pid q p' hne]

/-- Unfolding equation of the validation loop at an item whose product is
absent. -/
theorem buildSaleItems_cons_none (st : Store) (acc : ℚ) (done : List SaleItem)
    (it : SaleItemReq) (rest : List SaleItemReq)
    (hfind : Product.findById st it.productId = none) :
    buildSaleItems st acc done (it :: rest) =
      .error ("Product not found: " ++ toString it.productId) := by
  simp only [buildSaleItems]
  rw [hfind]

/-- Unfolding equation of the validation loop at an item whose product is
present. -/
theorem buildSaleItems_cons_some (st : Store) (acc : ℚ) (done : List SaleItem)
    (it : SaleItemReq) (rest : List SaleItemReq) (p : Product)
    (hfind : Product.findById st it.productId = some p) :
    buildSaleItems st acc done (it :: rest) =
      (if p.isActive = false then .error ("Product is not available: " ++ p.name)
       else if p.currentStock < it.quantity then .error (insufficientMsg p)
       else buildSaleItems st (acc + it.quantity * p.pricePerUnit)
         (done ++ [{ product := it.productId, productName := p.name,
                     quantity := it.quantity, unitPrice := p.pricePerUnit,
                     totalPrice := it.quantity * p.pricePerUnit, unit := p.unit }]) rest) := by
  simp only [buildSaleItems]
  rw [hfind]

/-- Unfolding equation of the first-failure walk at an item whose product is
absent. -/
theorem firstItemError_cons_none (st : Store) (it : SaleItemReq) (rest : List SaleItemReq)
    (hfind : Product.findById st it.productId = none) :
    firstItemError st (it :: rest) = some ("Product not found: " ++ toString it.productId) := by
  simp only [firstItemError]
  rw [hfind]

/-- Unfolding equation of the first-failure walk at an item whose product is
present. -/
theorem firstItemError_cons_some (st : Store) (it : SaleItemReq) (rest : List SaleItemReq)
    (p : Product) (hfind : Product.findById st it.productId = some p) :
    firstItemError st (it :: rest) =
      (if p.isActive = false then some ("Product is not available: " ++ p.name)
       else if p.currentStock < it.quantity then some (insufficientMsg p)
       else firstItemError st rest) := by
  simp only [firstItemError]
  rw [hfind]

/-- Per-item check value at an item whose product is present. -/
theorem itemOKb_some (st : Store) (it : SaleItemReq) (p : Product)
    (hfind : Product.findById st it.productId = some p) :
    itemOKb st it = (p.isActive && decide (it.quantity ≤ p.currentStock)) := by
  simp only [itemOKb]
  rw [hfind]

/-- Per-item check value at an item whose product is absent. -/
theorem itemOKb_none (st : Store) (it : SaleItemReq)
    (hfind : Product.findById st it.productId = none) :
    itemOKb st it = false := by
  simp only [itemOKb]
  rw [hfind]

/-- Built line item at an item whose product is present. -/
theorem builtItem_some (st : Store) (it : SaleItemReq) (p : Product)
    (hfind : Product.findById st it.productId = some p) :
    builtItem st it =
      { product := it.productId, productName := p.name, quantity := it.quantity,
        unitPrice := p.pricePerUnit, totalPrice := it.quantity * p.pricePerUnit,
        unit := p.unit } := by
  simp only [builtItem]
  rw [hfind]

/-- Described ledger entry at an item whose product is present. -/
theorem histOf_some (cn : String) (u sid : Nat) (st : Store) (it : SaleItemReq) (p : Product)
    (hfind : Product.findById st it.productId = some p) :
    histOf cn u sid st it =
      { product := it.productId, productName := p.name, action := "sold",
        quantity := it.quantity, previousStock := p.currentStock,
        newStock := p.currentStock - it.quantity, unit := p.unit,
        performedBy := u, sale := some sid, notes := "Sold to " ++ cn } := by
  simp only [histOf]
  rw [hfind]

/-- Validation loop on a list of passing items: the loop succeeds with the
accumulated total and the accumulated line items. -/
theorem buildSaleItems_ok (st : Store) :
    ∀ (items : List SaleItemReq) (acc : ℚ) (done : List SaleItem),
    (∀ it ∈ items, itemOKb st it = true) →
    buildSaleItems st acc done items =
      .ok (acc + totalOf st items, done ++ items.map (builtItem st)) := by
  intro items
  induction items with
  | nil => intro acc done _; simp [buildSaleItems, totalOf]
  | cons it rest ih =>
    intro acc done hok
    have hit := hok it (List.mem_cons_self it rest)
    simp only [itemOKb] at hit
    match hfind : Product.findById st it.productId with
    | none => rw [hfind] at hit; exact absurd hit (by simp)
    | some p =>
      rw [hfind] at hit
      have hact : p.isActive = true := by
        cases h : p.isActive <;> simp [h] at hit ⊢
      have hstock : ¬(p.currentStock < it.quantity) := by
        simp [hact] at hit
        exact not_lt.mpr hit
      simp only [buildSaleItems, hfind]
      rw [if_neg (by simp [hact]), if_neg hstock]
      rw [ih _ _ (fun x hx => hok x (List.mem_cons_of_mem it hx))]
      have htot : totalOf st (it :: rest) = it.quantity * p.pricePerUnit + totalOf st rest := by
        simp [totalOf, builtItem, hfind]
      rw [htot]
      have hbi : builtItem st it =
          { product := it.productId, productName := p.name, quantity := it.quantity,
            unitPrice := p.pricePerUnit, totalPrice := it.quantity * p.pricePerUnit,
            unit := p.unit } := by
        simp [builtItem, hfind]
      rw [← hbi]
      congr 2
      · ring
      · simp

/-- Validation loop on a list whose first failing check produces an error
message: the loop surfaces exactly that message. -/
theorem buildSaleItems_error (st : Store) :
    ∀ (items : List SaleItemReq) (m : String), firstItemError st items = some m →
    ∀ (acc : ℚ) (done : List SaleItem), buildSaleItems st acc done items = .error m := by
  intro items
  induction items with
  | nil => intro m h; simp [firstItemError] at h
  | cons it rest ih =>
    intro m h acc done
    match hfind : Product.findById st it.productId with
    | none =>
      rw [firstItemError_cons_none st it rest hfind, Option.some_inj] at h
      rw [buildSaleItems_cons_none st acc done it rest hfind, h]
    | some p =>
      rw [firstItemError_cons_some st it rest p hfind] at h
      rw [buildSaleItems_cons_some st acc done it rest p hfind]
      by_cases hact : p.isActive = false
      · rw [if_pos hact] at h
        rw [Option.some_inj] at h
        rw [if_pos hact, h]
      · rw [if_neg hact] at h
        rw [if_neg hact]
        by_cases hstock : p.currentStock < it.quantity
        · rw [if_pos hstock, Option.some_inj] at h
          rw [if_pos hstock, h]
        · rw [if_neg hstock] at h
          rw [if_neg hstock]
          exact ih m h _ _

/-- No per-item failure means every item passes its three checks. -/
theorem firstItemError_none (st : Store) :
    ∀ (items : List SaleItemReq), firstItemError st items = none ↔
      ∀ it ∈ items, itemOKb st it = true := by
  intro items
  induction items with
  | nil => simp [firstItemError]
  | cons it rest ih =>
    match hfind : Product.findById st it.productId with
    | none =>
      rw [firstItemError_cons_none st it rest hfind]
      constructor
      · intro h; simp at h
      · intro h
        have := h it (List.mem_cons_self it rest)
        rw [itemOKb_none st it hfind] at this
        simp at this
    | some p =>
      rw [firstItemError_cons_some st it rest p hfind]
      by_cases hact : p.isActive = false
      · rw [if_pos hact]
        constructor
        · intro h; simp at h
        · intro h
          have := h it (List.mem_cons_self it rest)
          rw [itemOKb_some st it p hfind] at this
          simp [hact] at this
      · have hact2 : p.isActive = true := by
          cases hh : p.isActive <;> simp [hh] at hact ⊢
        rw [if_neg hact]
        by_cases hstock : p.currentStock < it.quantity
        · rw [if_pos hstock]
          constructor
          · intro h; simp at h
          · intro h
            have := h it (List.mem_cons_self it rest)
            rw [itemOKb_some st it p hfind] at this
            simp [hact2] at this
            exact absurd hstock (not_lt.mpr this)
        · rw [if_neg hstock, ih]
          constructor
          · intro h x hx
            rcases List.mem_cons.mp hx with rfl | hx2
            · rw [itemOKb_some st x p hfind]
              simp [hact2, not_lt.mp hstock]
            · exact h x hx2
          · intro h x hx
            exact h x (List.mem_cons_of_mem it hx)

/-- Ledger description at an item whose product is present. -/
theorem histOfItem_some (cn : String) (u sid : Nat) (st : Store) (si : SaleItem) (p : Product)
    (hfind : Product.findById st si.product = some p) :
    histOfItem cn u sid st si =
      { product := si.product, productName := p.name, action := "sold",
        quantity := si.quantity, previousStock := p.currentStock,
        newStock := p.currentStock - si.quantity, unit := p.unit,
        performedBy := u, sale := some sid, notes := "Sold to " ++ cn } := by
  simp only [histOfItem]
  rw [hfind]

/-- Ledger description only reads the product list. -/
theorem histOfItem_congr (cn : String) (u sid : Nat) (st1 st2 : Store) (si : SaleItem)
    (h : Product.findById st1 si.product = Product.findById st2 si.product) :
    histOfItem cn u sid st1 si = histOfItem cn u sid st2 si := by
  simp only [histOfItem, h]

/-- Decrementing stock preserves product schema validity as long as the
result stays non-negative. -/
theorem productValid_decrement (p : Product) (q : ℚ) (h : productValid p = true)
    (h2 : 0 ≤ p.currentStock - q) :
    productValid { p with currentStock := p.currentStock - q } = true := by
  simp only [productValid, Bool.and_eq_true, decide_eq_true_eq, bne_iff_ne, ne_eq] at h ⊢
  tauto

/-- Sold ledger entries of a valid decremented product pass schema
validation. -/
theorem historyValid_sold (cn : String) (u sid pid : Nat) (nm unitStr : String)
    (q prev : ℚ) (hnm : nm ≠ "") (hprev : 0 ≤ prev) (hnew : 0 ≤ prev - q) :
    historyValid
      { product := pid, productName := nm, action := "sold", quantity := q,
        previousStock := prev, newStock := prev - q, unit := unitStr,
        performedBy := u, sale := some sid, notes := "Sold to " ++ cn } = true := by
  simp [historyValid, hnm, hprev, hnew]

/-- Unfolding equation of the decrement loop at an item whose product is
present. -/
theorem processItems_cons_some (cn : String) (u sid : Nat) (st : Store)
    (si : SaleItem) (rest : List SaleItem) (p : Product)
    (hfind : Product.findById st si.product = some p) :
    processItems cn u sid st (si :: rest) =
      (if productValid { p with currentStock := p.currentStock - si.quantity } then
        (if historyValid
            { product := si.product, productName := p.name, action := "sold",
              quantity := si.quantity, previousStock := p.currentStock,
              newStock := p.currentStock - si.quantity, unit := p.unit,
              performedBy := u, sale := some sid, notes := "Sold to " ++ cn } then
          processItems cn u sid
            { updateProduct st si.product { p with currentStock := p.currentStock - si.quantity } with
                history := st.history ++
                  [{ product := si.product, productName := p.name, action := "sold",
                     quantity := si.quantity, previousStock := p.currentStock,
                     newStock := p.currentStock - si.quantity, unit := p.unit,
                     performedBy := u, sale := some sid, notes := "Sold to " ++ cn }] } rest
        else
          .error (updateProduct st si.product { p with currentStock := p.currentStock - si.quantity },
            "Server error during sale"))
      else .error (st, "Server error during sale")) := by
  simp only [processItems]
  rw [hfind]
  rfl

/-- Unfolding equation of the decrement loop at an item whose product is
absent. -/
theorem processItems_cons_none (cn : String) (u sid : Nat) (st : Store)
    (si : SaleItem) (rest : List SaleItem)
    (hfind : Product.findById st si.product = none) :
    processItems cn u sid st (si :: rest) = .error (st, "Server error during sale") := by
  simp only [processItems]
  rw [hfind]

/-- The decrement loop never touches the sales, the users, or the sale id
counter, whether it completes or fails partway. -/
theorem processItems_fields (cn : String) (u sid : Nat) :
    ∀ (sitems : List SaleItem) (st : Store),
    (∀ st2, processItems cn u sid st sitems = .ok st2 →
      st2.sales = st.sales ∧ st2.users = st.users ∧ st2.nextSaleId = st.nextSaleId) ∧
    (∀ st2 m, processItems cn u sid st sitems = .error (st2, m) →
      st2.sales = st.sales ∧ st2.users = st.users ∧ st2.nextSaleId = st.nextSaleId) := by
  intro sitems
  induction sitems with
  | nil =>
    intro st
    constructor
    · intro st2 h
      simp only [processItems, Except.ok.injEq] at h
      subst h
      exact ⟨rfl, rfl, rfl⟩
    · intro st2 m h
      simp only [processItems] at h
      exact absurd h (by simp)
  | cons si rest ih =>
    intro st
    constructor
    · intro st2 h
      match hfind : Product.findById st si.product with
      | none =>
        rw [processItems_cons_none cn u sid st si rest hfind] at h
        exact absurd h (by simp)
      | some p =>
        rw [processItems_cons_some cn u sid st si rest p hfind] at h
        by_cases hpv : productValid { p with currentStock := p.currentStock - si.quantity } = true
        · rw [if_pos hpv] at h
          by_cases hhv : historyValid
              { product := si.product, productName := p.name, action := "sold",
                quantity := si.quantity, previousStock := p.currentStock,
                newStock := p.currentStock - si.quantity, unit := p.unit,
                performedBy := u, sale := some sid, notes := "Sold to " ++ cn } = true
          · rw [if_pos hhv] at h
            have := ((ih _).1 st2 h).1
            have h2 := ((ih _).1 st2 h).2.1
            have h3 := ((ih _).1 st2 h).2.2
            refine ⟨?_, ?_, ?_⟩ <;> simp_all [updateProduct]
          · rw [if_neg hhv] at h
            exact absurd h (by simp)
        · rw [if_neg hpv] at h
          exact absurd h (by simp)
    · intro st2 m h
      match hfind : Product.findById st si.product with
      | none =>
        rw [processItems_cons_none cn u sid st si rest hfind] at h
        simp only [Except.error.injEq, Prod.mk.injEq] at h
        rw [← h.1]
        exact ⟨rfl, rfl, rfl⟩
      | some p =>
        rw [processItems_cons_some cn u sid st si rest p hfind] at h
        by_cases hpv : productValid { p with currentStock := p.currentStock - si.quantity } = true
        · rw [if_pos hpv] at h
          by_cases hhv : historyValid
              { product := si.product, productName := p.name, action := "sold",
                quantity := si.quantity, previousStock := p.currentStock,
                newStock := p.currentStock - si.quantity, unit := p.unit,
                performedBy := u, sale := some sid, notes := "Sold to " ++ cn } = true
          · rw [if_pos hhv] at h
            have := ((ih _).2 st2 m h)
            refine ⟨?_, ?_, ?_⟩ <;> simp_all [updateProduct]
          · rw [if_neg hhv] at h
            simp only [Except.error.injEq, Prod.mk.injEq] at h
            rw [← h.1]
            simp [updateProduct]
        · rw [if_neg hpv] at h
          simp only [Except.error.injEq, Prod.mk.injEq] at h
          rw [← h.1]
          exact ⟨rfl, rfl, rfl⟩

/-- Success run of the decrement loop over line items with pairwise distinct
products, each present with valid schema fields and enough stock: the loop
completes, decrements each mentioned product by its quantity, appends exactly
one sold ledger entry per item in order, and touches nothing else. -/
theorem processItems_ok (cn : String) (u sid : Nat) :
    ∀ (sitems : List SaleItem) (st : Store),
    (sitems.map SaleItem.product).Nodup →
    (∀ si ∈ sitems, ∃ p, Product.findById st si.product = some p ∧ productValid p = true ∧
      si.quantity ≤ p.currentStock) →
    ∃ st2, processItems cn u sid st sitems = .ok st2 ∧
      st2.sales = st.sales ∧ st2.users = st.users ∧ st2.nextSaleId = st.nextSaleId ∧
      st2.history = st.history ++ sitems.map (histOfItem cn u sid st) ∧
      (∀ si ∈ sitems, ∀ p, Product.findById st si.product = some p →
        Product.findById st2 si.product = some { p with currentStock := p.currentStock - si.quantity }) ∧
      (∀ pid, pid ∉ sitems.map SaleItem.product →
        Product.findById st2 pid = Product.findById st pid) := by
  intro sitems
  induction sitems with
  | nil =>
    intro st _ _
    exact ⟨st, rfl, rfl, rfl, rfl, by simp, by simp, fun pid _ => rfl⟩
  | cons si rest ih =>
    intro st hnd hall
    obtain ⟨p, hfind, hpv, hq⟩ := hall si (List.mem_cons_self si rest)
    have hnd2 := List.nodup_cons.mp hnd
    have hnotin : si.product ∉ rest.map SaleItem.product := hnd2.1
    have hsub : (0 : ℚ) ≤ p.currentStock - si.quantity := by linarith
    have hpv2 := productValid_decrement p si.quantity hpv hsub
    have hname : p.name ≠ "" := by
      simp only [productValid, Bool.and_eq_true, decide_eq_true_eq, bne_iff_ne, ne_eq] at hpv
      tauto
    have hprev : (0 : ℚ) ≤ p.currentStock := by
      simp only [productValid, Bool.and_eq_true, decide_eq_true_eq, bne_iff_ne, ne_eq] at hpv
      tauto
    have hhv := historyValid_sold cn u sid si.product p.name p.unit si.quantity p.currentStock
      hname hprev hsub
    set p2 : Product := { p with currentStock := p.currentStock - si.quantity } with hp2
    set entry : StockHistory :=
      { product := si.product, productName := p.name, action := "sold",
        quantity := si.quantity, previousStock := p.currentStock,
        newStock := p.currentStock - si.quantity, unit := p.unit,
        performedBy := u, sale := some sid, notes := "Sold to " ++ cn } with hentry
    set st1 : Store :=
      { updateProduct st si.product p2 with history := st.history ++ [entry] } with hst1
    have hstep : ∀ q, q ≠ si.product → Product.findById st1 q = Product.findById st q := by
      intro q hne
      have h1 : Product.findById st1 q = Product.findById (updateProduct st si.product p2) q :=
        findById_congr _ _ q rfl
      rw [h1]
      exact findById_updateProduct_other st si.product q p2 hne
    have hstepSelf : Product.findById st1 si.product = some p2 := by
      have h1 : Product.findById st1 si.product =
          Product.findById (updateProduct st si.product p2) si.product :=
        findById_congr _ _ si.product rfl
      rw [h1]
      exact findById_updateProduct_self st si.product p p2 hfind
    have hall2 : ∀ x ∈ rest, ∃ q, Product.findById st1 x.product = some q ∧
        productValid q = true ∧ x.quantity ≤ q.currentStock := by
      intro x hx
      obtain ⟨q, hq1, hq2, hq3⟩ := hall x (List.mem_cons_of_mem si hx)
      have hne : x.product ≠ si.product := by
        intro hcontra
        exact hnotin (hcontra ▸ List.mem_map_of_mem SaleItem.product hx)
      exact ⟨q, (hstep x.product hne).trans hq1, hq2, hq3⟩
    obtain ⟨st2, hrun, hsales, husers, hnext, hhist, hdec, hkeep⟩ := ih st1 hnd2.2 hall2
    refine ⟨st2, ?_, ?_, ?_, ?_, ?_, ?_, ?_⟩
    · rw [processItems_cons_some cn u sid st si rest p hfind, if_pos hpv2, if_pos hhv]
      exact hrun
    · rw [hsales]; simp [hst1, updateProduct]
    · rw [husers]; simp [hst1, updateProduct]
    · rw [hnext]; simp [hst1, updateProduct]
    · rw [hhist]
      have hm : rest.map (histOfItem cn u sid st1) = rest.map (histOfItem cn u sid st) := by
        apply List.map_congr_left
        intro x hx
        have hne : x.product ≠ si.product := by
          intro hcontra
          exact hnotin (hcontra ▸ List.mem_map_of_mem SaleItem.product hx)
        exact histOfItem_congr cn u sid st1 st x (hstep x.product hne)
      rw [hm]
      have hhead : histOfItem cn u sid st si = entry :=
        histOfItem_some cn u sid st si p hfind
      have h1 : st1.history = st.history ++ [entry] := rfl
      rw [h1, List.map_cons, hhead]
      simp
    · intro x hx p3 hp3
      rcases List.mem_cons.mp hx with rfl | hx2
      · rw [hfind] at hp3
        injection hp3 with hp3
        subst hp3
        rw [hkeep x.product hnotin]
        exact hstepSelf
      · have hne : x.product ≠ si.product := by
          intro hcontra
          exact hnotin (hcontra ▸ List.mem_map_of_mem SaleItem.product hx2)
        exact hdec x hx2 p3 ((hstep x.product hne).trans hp3)
    · intro pid hpid
      simp only [List.map_cons, List.mem_cons, not_or] at hpid
      rw [hkeep pid hpid.2]
      exact hstep pid (fun h => hpid.1 h)

/-- Built line items keep the requested product id. -/
theorem builtItem_product (st : Store) (it : SaleItemReq) :
    (builtItem st it).product = it.productId := by
  simp only [builtItem]
  cases Product.findById st it.productId <;> rfl

/-- Built line items keep the requested quantity. -/
theorem builtItem_quantity (st : Store) (it : SaleItemReq) :
    (builtItem st it).quantity = it.quantity := by
  simp only [builtItem]
  cases Product.findById st it.productId <;> rfl

/-- Product ids of the built line items are the requested product ids. -/
theorem builtItems_products (st : Store) (items : List SaleItemReq) :
    (items.map (builtItem st)).map SaleItem.product = items.map SaleItemReq.productId := by
  rw [List.map_map]
  exact List.map_congr_left (fun it _ => builtItem_product st it)

/-- A product found in a store whose products all pass schema validation
passes schema validation. -/
theorem findById_valid (st : Store) (pid : Nat) (p : Product)
    (h5 : storeProductsValid st = true) (h : Product.findById st pid = some p) :
    productValid p = true := by
  simp only [Product.findById] at h
  match hf : st.products.find? (fun e => e.1 == pid) with
  | none => rw [hf] at h; simp at h
  | some e =>
    rw [hf] at h
    simp at h
    have hmem := List.mem_of_find?_eq_some hf
    simp only [storeProductsValid, List.all_eq_true] at h5
    rw [← h]
    exact h5 e hmem

/-- A string of length at least two is nonempty. -/
theorem ne_empty_of_two_le (s : String) (h : 2 ≤ s.length) : s ≠ "" := by
  intro hc
  rw [hc] at h
  simp [String.length] at h

/-- Sale number candidates are never the empty string. -/
theorem mkSaleNumber_ne_empty (d : SaleDate) (r : Nat) : mkSaleNumber d r ≠ "" := by
  intro h
  have := congrArg String.data h
  simp only [mkSaleNumber, String.data_append] at this
  simp at this

/-- Unpacking a passing express-validator run into the individual field
facts. -/
theorem reqValidationErrors_parts (req : SaleReq) :
    reqValidationErrors req = [] →
    2 ≤ req.customerName.trim.length ∧ req.items.isEmpty = false ∧
    (∀ it ∈ req.items, (1 : ℚ)/10 ≤ it.quantity) ∧ 0 ≤ req.discount.getD 0 ∧
    req.paymentMethod.getD "cash" ∈ ["cash", "card", "transfer", "credit"] := by
  obtain ⟨cn, ph, its, disc, pm, nts⟩ := req
  intro h
  simp only [reqValidationErrors, List.append_eq_nil] at h
  obtain ⟨⟨⟨⟨⟨hname, hphone⟩, hitems⟩, hqty⟩, hdisc⟩, hpm⟩ := h
  refine ⟨?_, ?_, ?_, ?_, ?_⟩
  · by_cases hc : cn.trim.length < 2
    · rw [if_pos hc] at hname
      exact absurd hname (by simp)
    · exact le_of_not_lt hc
  · by_cases hc : its.isEmpty
    · rw [if_pos hc] at hitems
      exact absurd hitems (by simp)
    · simpa using hc
  · intro it hit
    have := List.filterMap_eq_nil_iff.mp hqty it hit
    by_cases hc : it.quantity < (1 : ℚ)/10
    · rw [if_pos hc] at this
      exact absurd this (by simp)
    · exact le_of_not_lt hc
  · revert hdisc
    cases disc with
    | none => intro _; simp
    | some q =>
      intro hdisc
      by_cases hc : q < 0
      · simp [hc] at hdisc
      · exact le_of_not_lt hc
  · revert hpm
    cases pm with
    | none => intro _; simp
    | some pmv =>
      intro hpm
      by_cases hc : pmv ∈ ["cash", "card", "transfer", "credit"]
      · simpa using hc
      · simp [hc] at hpm

/-- The appended sale is the one a findById on its id returns when every
earlier sale carries a different id. -/
theorem findById_sales_append (l : List Sale) (sale : Sale)
    (h : ∀ s ∈ l, s.id ≠ sale.id) :
    (l ++ [sale]).find? (fun s => s.id == sale.id) = some sale := by
  rw [List.find?_append]
  have h1 : l.find? (fun s => s.id == sale.id) = none := by
    rw [List.find?_eq_none]
    intro s hs
    simpa using h s hs
  rw [h1]
  simp [List.find?_cons]

/-- Ledger description of a built item reduces to the request-level ledger
description on any store with the same products. -/
theorem histOfItem_builtItem (cn : String) (u sid : Nat) (st1 st : Store)
    (hp : st1.products = st.products) (it : SaleItemReq) :
    histOfItem cn u sid st1 (builtItem st it) = histOf cn u sid st it := by
  have hfe : Product.findById st1 it.productId = Product.findById st it.productId :=
    findById_congr st1 st it.productId hp
  cases hfind : Product.findById st it.productId with
  | none =>
    rw [builtItem, hfind]
    simp only [histOfItem, histOf, hfind]
    rw [hfe, hfind]
  | some p =>
    rw [builtItem_some st it p hfind]
    rw [histOf_some cn u sid st it p hfind]
    have : Product.findById st1 it.productId = some p := hfe.trans hfind
    rw [histOfItem_some cn u sid st1 _ p (by simpa using this)]

/-- Field facts of a built line item over a schema-valid store. -/
theorem builtItem_facts (st : Store) (it : SaleItemReq)
    (h5 : storeProductsValid st = true) (hok : itemOKb st it = true)
    (hq : (1 : ℚ)/10 ≤ it.quantity) :
    (builtItem st it).productName ≠ "" ∧ (1 : ℚ)/10 ≤ (builtItem st it).quantity ∧
    0 ≤ (builtItem st it).unitPrice ∧ 0 ≤ (builtItem st it).totalPrice := by
  match hfind : Product.findById st it.productId with
  | none =>
    rw [itemOKb_none st it hfind] at hok
    exact absurd hok (by simp)
  | some p =>
    have hpv := findById_valid st it.productId p h5 hfind
    rw [builtItem_some st it p hfind]
    simp only [productValid, Bool.and_eq_true, decide_eq_true_eq, bne_iff_ne, ne_eq] at hpv
    have hqpos : (0 : ℚ) ≤ it.quantity := le_trans (by norm_num) hq
    refine ⟨by tauto, hq, by tauto, ?_⟩
    have hprice : (0 : ℚ) ≤ p.pricePerUnit := by tauto
    exact mul_nonneg hqpos hprice

/-- The accumulated total over passing items of a schema-valid store is
non-negative. -/
theorem totalOf_nonneg (st : Store) (items : List SaleItemReq)
    (h5 : storeProductsValid st = true) (hok : ∀ it ∈ items, itemOKb st it = true)
    (hq : ∀ it ∈ items, (1 : ℚ)/10 ≤ it.quantity) :
    0 ≤ totalOf st items := by
  apply List.sum_nonneg
  intro x hx
  simp only [List.mem_map] at hx
  obtain ⟨si, ⟨it, hit, rfl⟩, rfl⟩ := hx
  exact (builtItem_facts st it h5 (hok it hit) (hq it hit)).2.2.2

/-- The sale document the handler builds passes the sale schema validation
whenever field validation, the per-item checks and the discount check
passed against a schema-valid store. -/
theorem saleValid_discharge (st : Store) (req : SaleReq) (u : Nat) (d : SaleDate)
    (n : String)
    (h1 : reqValidationErrors req = [])
    (h2 : ∀ it ∈ req.items, itemOKb st it = true)
    (h3 : 0 ≤ totalOf st req.items - req.discount.getD 0)
    (h5 : storeProductsValid st = true)
    (hn : n ≠ "") :
    saleValid
      { id := st.nextSaleId, saleNumber := n, customerName := req.customerName.trim,
        customerPhone := req.customerPhone.map String.trim,
        items := req.items.map (builtItem st), totalAmount := totalOf st req.items,
        discount := req.discount.getD 0,
        finalAmount := totalOf st req.items - req.discount.getD 0,
        paymentMethod := req.paymentMethod.getD "cash", status := "completed",
        soldBy := u, saleDate := d, notes := req.notes.map String.trim } = true := by
  obtain ⟨hcn, _, hqty, hdisc, hpm⟩ := reqValidationErrors_parts req h1
  have hcn2 : req.customerName.trim ≠ "" := ne_empty_of_two_le _ hcn
  have htot : 0 ≤ totalOf st req.items := totalOf_nonneg st req.items h5 h2 hqty
  simp only [saleValid, Bool.and_eq_true, bne_iff_ne, ne_eq, decide_eq_true_eq,
    List.all_eq_true]
  refine ⟨⟨⟨⟨⟨⟨⟨hn, hcn2⟩, htot⟩, hdisc⟩, h3⟩, by simpa using hpm⟩, by simp⟩, ?_⟩
  intro si hsi
  simp only [List.mem_map] at hsi
  obtain ⟨it, hit, rfl⟩ := hsi
  have hf := builtItem_facts st it h5 (h2 it hit) (hqty it hit)
  exact ⟨⟨⟨hf.1, hf.2.1⟩, hf.2.2.1⟩, hf.2.2.2⟩

/-- Unfolding equation of the sale handler once field validation and the
item validation loop have passed. -/
theorem createSale_eq_validated (st : Store) (req : SaleReq) (u : Nat) (d : SaleDate)
    (rand : Nat → Nat) (t : ℚ) (xs : List SaleItem)
    (h1 : reqValidationErrors req = [])
    (hbuild : buildSaleItems st 0 [] req.items = .ok (t, xs)) :
    createSale st req u d rand =
      (if t - req.discount.getD 0 < 0 then
        { status := 400, message := "Discount cannot exceed total amount", errors := [],
          sale := none, store := st }
      else if 10 ≤ (saleNumberLoop st.sales d rand 0 10).1 then
        { status := 500, message := "Could not generate unique sale number", errors := [],
          sale := none, store := st }
      else
        let sale := preSaveHook
          { id := st.nextSaleId, saleNumber := (saleNumberLoop st.sales d rand 0 10).2,
            customerName := req.customerName.trim,
            customerPhone := req.customerPhone.map String.trim,
            items := xs, totalAmount := t, discount := req.discount.getD 0,
            finalAmount := t - req.discount.getD 0,
            paymentMethod := req.paymentMethod.getD "cash",
            status := "completed", soldBy := u, saleDate := d,
            notes := req.notes.map String.trim } d (rand (saleNumberLoop st.sales d rand 0 10).1)
        if saleValid sale then
          match processItems req.customerName.trim u sale.id
              { st with sales := st.sales ++ [sale], nextSaleId := st.nextSaleId + 1 } xs with
          | .ok st2 =>
            { status := 201, message := "Sale completed successfully", errors := [],
              sale := Sale.findById st2 sale.id, store := st2 }
          | .error (stPartial, m) =>
            { status := 500, message := m, errors := [], sale := none, store := stPartial }
        else
          { status := 500, message := "Server error during sale", errors := [], sale := none,
            store := st }) := by
  simp only [createSale]
  rw [h1, hbuild]
  rfl

/-- Full characterization of a successful sale: under passing field
validation, passing per-item checks, a non-negative final amount, a sale
number found within the attempt budget, a schema-valid catalog, pairwise
distinct products and a fresh sale id, the handler returns 201, appends
exactly one sale and one sold ledger entry per line item, and decrements
exactly the mentioned products. -/
theorem createSale_success (st : Store) (req : SaleReq) (u : Nat) (d : SaleDate)
    (rand : Nat → Nat)
    (h1 : reqValidationErrors req = [])
    (h2 : ∀ it ∈ req.items, itemOKb st it = true)
    (h3 : 0 ≤ totalOf st req.items - req.discount.getD 0)
    (h4 : (saleNumberLoop st.sales d rand 0 10).1 < 10)
    (h5 : storeProductsValid st = true)
    (h6 : (req.items.map SaleItemReq.productId).Nodup)
    (h7 : ∀ s ∈ st.sales, s.id ≠ st.nextSaleId) :
    ∃ st2,
      createSale st req u d rand =
        { status := 201, message := "Sale completed successfully", errors := [],
          sale := some
            { id := st.nextSaleId, saleNumber := (saleNumberLoop st.sales d rand 0 10).2,
              customerName := req.customerName.trim,
              customerPhone := req.customerPhone.map String.trim,
              items := req.items.map (builtItem st), totalAmount := totalOf st req.items,
              discount := req.discount.getD 0,
              finalAmount := totalOf st req.items - req.discount.getD 0,
              paymentMethod := req.paymentMethod.getD "cash", status := "completed",
              soldBy := u, saleDate := d, notes := req.notes.map String.trim },
          store := st2 } ∧
      st2.sales = st.sales ++
        [{ id := st.nextSaleId, saleNumber := (saleNumberLoop st.sales d rand 0 10).2,
           customerName := req.customerName.trim,
           customerPhone := req.customerPhone.map String.trim,
           items := req.items.map (builtItem st), totalAmount := totalOf st req.items,
           discount := req.discount.getD 0,
           finalAmount := totalOf st req.items - req.discount.getD 0,
           paymentMethod := req.paymentMethod.getD "cash", status := "completed",
           soldBy := u, saleDate := d, notes := req.notes.map String.trim }] ∧
      st2.users = st.users ∧ st2.nextSaleId = st.nextSaleId + 1 ∧
      st2.history = st.history ++
        req.items.map (histOf req.customerName.trim u st.nextSaleId st) ∧
      (∀ it ∈ req.items, ∀ p, Product.findById st it.productId = some p →
        Product.findById st2 it.productId =
          some { p with currentStock := p.currentStock - it.quantity }) ∧
      (∀ pid, pid ∉ req.items.map SaleItemReq.productId →
        Product.findById st2 pid = Product.findById st pid) := by
  have hbuild : buildSaleItems st 0 [] req.items =
      .ok (totalOf st req.items, req.items.map (builtItem st)) := by
    have := buildSaleItems_ok st req.items 0 [] h2
    simpa using this
  set nsl := saleNumberLoop st.sales d rand 0 10 with hnsl
  have hne : nsl.2 ≠ "" := by
    obtain ⟨i, hi⟩ := saleNumberLoop_shape st.sales d rand 10 0
    rw [hnsl, hi]
    exact mkSaleNumber_ne_empty d (rand i)
  set newSale : Sale :=
    { id := st.nextSaleId, saleNumber := nsl.2,
      customerName := req.customerName.trim,
      customerPhone := req.customerPhone.map String.trim,
      items := req.items.map (builtItem st), totalAmount := totalOf st req.items,
      discount := req.discount.getD 0,
      finalAmount := totalOf st req.items - req.discount.getD 0,
      paymentMethod := req.paymentMethod.getD "cash", status := "completed",
      soldBy := u, saleDate := d, notes := req.notes.map String.trim } with hNS
  have hid : newSale.id = st.nextSaleId := by rw [hNS]
  have hhook : preSaveHook newSale d (rand nsl.1) = newSale := by
    rw [hNS]
    simp [preSaveHook, hne]
  have hsv : saleValid newSale = true := by
    rw [hNS]
    exact saleValid_discharge st req u d nsl.2 h1 h2 h3 h5 hne
  set st1 : Store :=
    { st with sales := st.sales ++ [newSale], nextSaleId := st.nextSaleId + 1 } with hst1
  have hprod1 : st1.products = st.products := by rw [hst1]
  have hnd : ((req.items.map (builtItem st)).map SaleItem.product).Nodup := by
    rw [builtItems_products]
    exact h6
  have hitems2 : ∀ si ∈ req.items.map (builtItem st),
      ∃ p, Product.findById st1 si.product = some p ∧
        productValid p = true ∧ si.quantity ≤ p.currentStock := by
    intro si hsi
    simp only [List.mem_map] at hsi
    obtain ⟨it, hit, rfl⟩ := hsi
    have hok := h2 it hit
    match hfind : Product.findById st it.productId with
    | none =>
      rw [itemOKb_none st it hfind] at hok
      exact absurd hok (by simp)
    | some p =>
      rw [itemOKb_some st it p hfind] at hok
      simp only [Bool.and_eq_true, decide_eq_true_eq] at hok
      refine ⟨p, ?_, findById_valid st it.productId p h5 hfind, ?_⟩
      · rw [builtItem_product st it]
        exact (findById_congr st1 st it.productId hprod1).trans hfind
      · rw [builtItem_quantity st it]
        exact hok.2
  obtain ⟨st2, hrun, hsales, husers, hnext, hhist, hdec, hkeep⟩ :=
    processItems_ok req.customerName.trim u st.nextSaleId (req.items.map (builtItem st)) st1
      hnd hitems2
  have hsales2 : st2.sales = st.sales ++ [newSale] := by
    rw [hsales, hst1]
  have hfindSale : Sale.findById st2 st.nextSaleId = some newSale := by
    rw [Sale.findById, hsales2, ← hid]
    exact findById_sales_append st.sales newSale (by rw [hid]; exact h7)
  refine ⟨st2, ?_, hsales2, ?_, ?_, ?_, ?_, ?_⟩
  · rw [createSale_eq_validated st req u d rand (totalOf st req.items)
      (req.items.map (builtItem st)) h1 hbuild]
    rw [← hnsl, ← hNS]
    rw [if_neg (not_lt.mpr h3), if_neg (not_le.mpr h4)]
    rw [hhook, if_pos hsv, ← hst1, hid, hrun]
    simp only [hfindSale]
  · rw [husers, hst1]
  · rw [hnext, hst1]
  · rw [hhist, hst1]
    have hm : (req.items.map (builtItem st)).map
        (histOfItem req.customerName.trim u st.nextSaleId st1) =
        req.items.map (histOf req.customerName.trim u st.nextSaleId st) := by
      rw [List.map_map]
      apply List.map_congr_left
      intro it hit
      exact histOfItem_builtItem req.customerName.trim u st.nextSaleId st1 st hprod1 it
    simp only [← hst1] at hm ⊢
    rw [hm]
  · intro it hit p hp
    have hsi := List.mem_map_of_mem (builtItem st) hit
    have hres := hdec (builtItem st it) hsi p (by
      rw [builtItem_product st it]
      exact (findById_congr st1 st it.productId hprod1).trans hp)
    rw [builtItem_product st it, builtItem_quantity st it] at hres
    exact hres
  · intro pid hpid
    have h := hkeep pid (by rw [builtItems_products]; exact hpid)
    exact h.trans (findById_congr st1 st pid hprod1)

/-- Every line item the validation loop emits beyond those already
accumulated carries the price of its product as stored, with the total
recomputed from quantity and stored unit price. -/
theorem buildSaleItems_price_spec (st : Store) :
    ∀ (items : List SaleItemReq) (acc : ℚ) (done : List SaleItem) (t : ℚ)
      (xs : List SaleItem),
    buildSaleItems st acc done items = .ok (t, xs) →
    ∀ si ∈ xs, si ∈ done ∨ ∃ p, Product.findById st si.product = some p ∧
      si.unitPrice = p.pricePerUnit ∧ si.totalPrice = si.quantity * p.pricePerUnit := by
  intro items
  induction items with
  | nil =>
    intro acc done t xs h si hsi
    simp only [buildSaleItems, Except.ok.injEq, Prod.mk.injEq] at h
    rw [← h.2] at hsi
    exact Or.inl hsi
  | cons it rest ih =>
    intro acc done t xs h si hsi
    match hfind : Product.findById st it.productId with
    | none =>
      rw [buildSaleItems_cons_none st acc done it rest hfind] at h
      exact absurd h (by simp)
    | some p =>
      rw [buildSaleItems_cons_some st acc done it rest p hfind] at h
      by_cases hact : p.isActive = false
      · rw [if_pos hact] at h
        exact absurd h (by simp)
      · rw [if_neg hact] at h
        by_cases hstock : p.currentStock < it.quantity
        · rw [if_pos hstock] at h
          exact absurd h (by simp)
        · rw [if_neg hstock] at h
          have := ih _ _ t xs h si hsi
          rcases this with hmem | hspec
          · rcases List.mem_append.mp hmem with hmem2 | hmem2
            · exact Or.inl hmem2
            · simp only [List.mem_singleton] at hmem2
              subst hmem2
              exact Or.inr ⟨p, hfind, rfl, rfl⟩
          · exact Or.inr hspec

/-- Unfolding equation of the sale handler when some field validator
failed. -/
theorem createSale_badfields (st : Store) (req : SaleReq) (u : Nat) (d : SaleDate)
    (rand : Nat → Nat) (h : (reqValidationErrors req).isEmpty = false) :
    createSale st req u d rand =
      { status := 400, message := "", errors := reqValidationErrors req, sale := none,
        store := st } := by
  simp only [createSale]
  rw [if_pos h]

/-- Unfolding equation of the sale handler when the item validation loop
failed. -/
theorem createSale_builderr (st : Store) (req : SaleReq) (u : Nat) (d : SaleDate)
    (rand : Nat → Nat) (m : String)
    (h1 : reqValidationErrors req = [])
    (hb : buildSaleItems st 0 [] req.items = .error m) :
    createSale st req u d rand =
      { status := 400, message := m, errors := [], sale := none, store := st } := by
  simp only [createSale]
  rw [h1, hb]
  rfl

/-- Whatever happens inside the handler, the sale list either stays put or
gains exactly one sale at the end; the appended sale carries a nonempty sale
number no pre-existing sale shares, the pre-save hook is the identity on it,
and its line items price from the stored catalog. -/
theorem createSale_sales_shape (st : Store) (req : SaleReq) (u : Nat) (d : SaleDate)
    (rand : Nat → Nat) :
    (createSale st req u d rand).store.sales = st.sales ∨
    ∃ s, (createSale st req u d rand).store.sales = st.sales ++ [s] ∧
      s.saleNumber = (saleNumberLoop st.sales d rand 0 10).2 ∧
      s.saleNumber ≠ "" ∧ (∀ d2 r2, preSaveHook s d2 r2 = s) ∧
      (st.sales.find? (fun x => x.saleNumber == s.saleNumber)).isNone = true ∧
      (∀ si ∈ s.items, ∃ p, Product.findById st si.product = some p ∧
        si.unitPrice = p.pricePerUnit ∧ si.totalPrice = si.quantity * p.pricePerUnit) := by
  by_cases hf : (reqValidationErrors req).isEmpty = false
  · rw [createSale_badfields st req u d rand hf]
    exact Or.inl rfl
  · have h1 : reqValidationErrors req = [] := by
      cases hl : reqValidationErrors req with
      | nil => rfl
      | cons a l => rw [hl] at hf; simp at hf
    match hb : buildSaleItems st 0 [] req.items with
    | .error m =>
      rw [createSale_builderr st req u d rand m h1 hb]
      exact Or.inl rfl
    | .ok (t, xs) =>
      rw [createSale_eq_validated st req u d rand t xs h1 hb]
      set nsl := saleNumberLoop st.sales d rand 0 10 with hnsl
      have hne : nsl.2 ≠ "" := by
        obtain ⟨i, hi⟩ := saleNumberLoop_shape st.sales d rand 10 0
        rw [hnsl, hi]
        exact mkSaleNumber_ne_empty d (rand i)
      by_cases hd : t - req.discount.getD 0 < 0
      · rw [if_pos hd]
        exact Or.inl rfl
      · rw [if_neg hd]
        by_cases hten : 10 ≤ nsl.1
        · rw [if_pos hten]
          exact Or.inl rfl
        · rw [if_neg hten]
          have hfresh : (st.sales.find? (fun x => x.saleNumber == nsl.2)).isNone = true := by
            rw [hnsl]
            exact saleNumberLoop_fresh st.sales d rand 10 0 rfl (by rw [← hnsl]; omega)
          have hprice : ∀ si ∈ xs, ∃ p, Product.findById st si.product = some p ∧
              si.unitPrice = p.pricePerUnit ∧ si.totalPrice = si.quantity * p.pricePerUnit := by
            intro si hsi
            rcases buildSaleItems_price_spec st req.items 0 [] t xs hb si hsi with hmem | hspec
            · exact absurd hmem (by simp)
            · exact hspec
          set sale0 : Sale :=
            { id := st.nextSaleId, saleNumber := nsl.2,
              customerName := req.customerName.trim,
              customerPhone := req.customerPhone.map String.trim,
              items := xs, totalAmount := t, discount := req.discount.getD 0,
              finalAmount := t - req.discount.getD 0,
              paymentMethod := req.paymentMethod.getD "cash", status := "completed",
              soldBy := u, saleDate := d, notes := req.notes.map String.trim } with hs0
          have hhook : preSaveHook sale0 d (rand nsl.1) = sale0 := by
            rw [hs0]
            simp [preSaveHook, hne]
          have hhook2 : ∀ d2 r2, preSaveHook sale0 d2 r2 = sale0 := by
            intro d2 r2
            rw [hs0]
            simp [preSaveHook, hne]
          have hfacts : sale0.saleNumber = nsl.2 ∧ sale0.items = xs := by
            rw [hs0]
            exact ⟨rfl, rfl⟩
          rw [hhook]
          by_cases hsv : saleValid sale0 = true
          · rw [if_pos hsv]
            set st1 : Store :=
              { st with sales := st.sales ++ [sale0], nextSaleId := st.nextSaleId + 1 } with hst1
            match hproc : processItems req.customerName.trim u sale0.id st1 xs with
            | .ok st2 =>
              refine Or.inr ⟨sale0, ?_, hfacts.1, hfacts.1 ▸ hne, hhook2,
                hfacts.1 ▸ hfresh, hfacts.2 ▸ hprice⟩
              have := ((processItems_fields req.customerName.trim u sale0.id xs st1).1 st2 hproc).1
              simp only [this, hst1]
            | .error p =>
              obtain ⟨stP, m⟩ := p
              refine Or.inr ⟨sale0, ?_, hfacts.1, hfacts.1 ▸ hne, hhook2,
                hfacts.1 ▸ hfresh, hfacts.2 ▸ hprice⟩
              have := ((processItems_fields req.customerName.trim u sale0.id xs st1).2 stP m hproc).1
              simp only [this, hst1]
          · rw [if_neg hsv]
            exact Or.inl rfl


/-- C10: the pre-save hook of the Sale model assigns a sale number of the
form RF, date, random three-digit suffix without any uniqueness check
whenever a sale is saved with no sale number; this unchecked path is
unreachable from the sale handler, because every sale the handler saves
already carries a nonempty, collision-checked sale number on which the hook
is the identity. -/
theorem c10_presave_hook_unreachable :
    (∀ (s : Sale) (d : SaleDate) (r : Nat), s.saleNumber = "" →
      preSaveHook s d r = { s with saleNumber := mkSaleNumber d r }) ∧
    (∀ (st : Store) (req : SaleReq) (u : Nat) (d : SaleDate) (rand : Nat → Nat),
      (createSale st req u d rand).store.sales = st.sales ∨
      ∃ s, (createSale st req u d rand).store.sales = st.sales ++ [s] ∧
        s.saleNumber ≠ "" ∧ (∀ d2 r2, preSaveHook s d2 r2 = s)) := by
  constructor
  · intro s d r h
    simp [preSaveHook, h]
  · intro st req u d rand
    rcases createSale_sales_shape st req u d rand with h | ⟨s, heq, _, hne, hhook, _, _⟩
    · exact Or.inl h
    · exact Or.inr ⟨s, heq, hne, hhook⟩

/-- Witness for C10 at a concrete blank-numbered sale. -/
theorem c10_witness :
    preSaveHook fxNoNumSale fxDate 5 =
      { fxNoNumSale with saleNumber := mkSaleNumber fxDate 5 } :=
  c10_presave_hook_unreachable.1 fxNoNumSale fxDate 5 rfl

/-- Unfolding equation of the receipt handler at a missing or foreign
sale. -/
theorem getReceipt_none (st : Store) (sid uid : Nat)
    (hfind : st.sales.find? (fun s => s.id == sid && s.soldBy == uid) = none) :
    getReceipt st sid uid = { status := 404, message := "Sale not found", receipt := none } := by
  simp only [getReceipt]
  rw [hfind]

/-- Unfolding equation of the receipt handler at a found sale. -/
theorem getReceipt_found (st : Store) (sid uid : Nat) (sale : Sale)
    (hfind : st.sales.find? (fun s => s.id == sid && s.soldBy == uid) = some sale) :
    getReceipt st sid uid =
      (match findUser st sale.soldBy with
       | none => { status := 500, message := "Server error", receipt := none }
       | some sellerName =>
        { status := 200, message := "",
          receipt := some
            { saleNumber := sale.saleNumber, date := sale.saleDate,
              customerName := sale.customerName, customerPhone := sale.customerPhone,
              items := sale.items, subtotal := sale.totalAmount, discount := sale.discount,
              finalAmount := sale.finalAmount, paymentMethod := sale.paymentMethod,
              soldByName := sellerName, notes := sale.notes } }) := by
  simp only [getReceipt]
  rw [hfind]

/-- C9: the receipt endpoint returns 404 exactly when no sale with the
requested id belongs to the requesting seller; otherwise it returns the
flattened projection of the stored sale, read back without recomputation.
The requesting seller is assumed present in the user collection, as the
authentication middleware guarantees. -/
theorem c9_receipt_404_iff (st : Store) (sid uid : Nat) (nm : String)
    (hu : findUser st uid = some nm) :
    ((getReceipt st sid uid).status = 404 ↔
      ∀ s ∈ st.sales, ¬(s.id = sid ∧ s.soldBy = uid)) ∧
    ((∀ s ∈ st.sales, ¬(s.id = sid ∧ s.soldBy = uid)) →
      getReceipt st sid uid =
        { status := 404, message := "Sale not found", receipt := none }) ∧
    (∀ sale, st.sales.find? (fun s => s.id == sid && s.soldBy == uid) = some sale →
      getReceipt st sid uid =
        { status := 200, message := "",
          receipt := some
            { saleNumber := sale.saleNumber, date := sale.saleDate,
              customerName := sale.customerName, customerPhone := sale.customerPhone,
              items := sale.items, subtotal := sale.totalAmount, discount := sale.discount,
              finalAmount := sale.finalAmount, paymentMethod := sale.paymentMethod,
              soldByName := nm, notes := sale.notes } }) := by
  have hfound : ∀ sale, st.sales.find? (fun s => s.id == sid && s.soldBy == uid) = some sale →
      getReceipt st sid uid =
        { status := 200, message := "",
          receipt := some
            { saleNumber := sale.saleNumber, date := sale.saleDate,
              customerName := sale.customerName, customerPhone := sale.customerPhone,
              items := sale.items, subtotal := sale.totalAmount, discount := sale.discount,
              finalAmount := sale.finalAmount, paymentMethod := sale.paymentMethod,
              soldByName := nm, notes := sale.notes } } := by
    intro sale hfind
    have hsb : sale.soldBy = uid := by
      have := List.find?_some hfind
      simp only [Bool.and_eq_true, beq_iff_eq] at this
      exact this.2
    rw [getReceipt_found st sid uid sale hfind, hsb, hu]
  refine ⟨?_, ?_, hfound⟩
  · match hfind : st.sales.find? (fun s => s.id == sid && s.soldBy == uid) with
    | none =>
      rw [getReceipt_none st sid uid hfind]
      have := List.find?_eq_none.mp hfind
      constructor
      · intro _ s hs hc
        have := this s hs
        simp only [Bool.and_eq_true, beq_iff_eq] at this
        exact this ⟨hc.1, hc.2⟩
      · intro _
        rfl
    | some sale =>
      rw [hfound sale hfind]
      constructor
      · intro hc
        exact absurd hc (by simp)
      · intro hall
        have hmem := List.mem_of_find?_eq_some hfind
        have hpred := List.find?_some hfind
        simp only [Bool.and_eq_true, beq_iff_eq] at hpred
        exact absurd hpred (by simpa using hall sale hmem)
  · intro hall
    have hfind : st.sales.find? (fun s => s.id == sid && s.soldBy == uid) = none := by
      rw [List.find?_eq_none]
      intro s hs
      simp only [Bool.and_eq_true, beq_iff_eq, not_and]
      intro h1 h2
      exact hall s hs ⟨h1, h2⟩
    exact getReceipt_none st sid uid hfind

/-- Witness for C9: a foreign seller gets 404 for a concrete completed sale,
and the 404 condition of the owner matches the ownership scan. -/
theorem c9_witness :
    getReceipt (createSale fxStore fxReqOne 7 fxDate (fun _ => 42)).store 100 8 =
      { status := 404, message := "Sale not found", receipt := none } ∧
    ((getReceipt (createSale fxStore fxReqOne 7 fxDate (fun _ => 42)).store 100 7).status = 404 ↔
      ∀ s ∈ (createSale fxStore fxReqOne 7 fxDate (fun _ => 42)).store.sales,
        ¬(s.id = 100 ∧ s.soldBy = 7)) := by
  constructor
  · exact (c9_receipt_404_iff (createSale fxStore fxReqOne 7 fxDate (fun _ => 42)).store
      100 8 "Bob" (by with_unfolding_all decide)).2.1 (by with_unfolding_all decide)
  · exact (c9_receipt_404_iff (createSale fxStore fxReqOne 7 fxDate (fun _ => 42)).store
      100 7 "Jane" (by with_unfolding_all decide)).1

/-- Item lists agreeing on product and quantity are interchangeable for the
validation loop. -/
theorem itemsAgree_buildSaleItems (st : Store) :
    ∀ (l1 l2 : List SaleItemReq), itemsAgree l1 l2 = true →
    ∀ (acc : ℚ) (done : List SaleItem),
      buildSaleItems st acc done l1 = buildSaleItems st acc done l2 := by
  intro l1
  induction l1 with
  | nil =>
    intro l2 hag acc done
    cases l2 with
    | nil => rfl
    | cons b bs => simp [itemsAgree] at hag
  | cons a as ih =>
    intro l2 hag acc done
    cases l2 with
    | nil => simp [itemsAgree] at hag
    | cons b bs =>
      simp only [itemsAgree, Bool.and_eq_true, beq_iff_eq, decide_eq_true_eq] at hag
      obtain ⟨⟨hpid, hq⟩, hrest⟩ := hag
      match hfind : Product.findById st b.productId with
      | none =>
        rw [buildSaleItems_cons_none st acc done a as (hpid ▸ hfind),
          buildSaleItems_cons_none st acc done b bs hfind, hpid]
      | some p =>
        rw [buildSaleItems_cons_some st acc done a as p (hpid ▸ hfind),
          buildSaleItems_cons_some st acc done b bs p hfind, hpid, hq]
        by_cases hact : p.isActive = false
        · rw [if_pos hact, if_pos hact]
        · rw [if_neg hact, if_neg hact]
          by_cases hstock : p.currentStock < b.quantity
          · rw [if_pos hstock, if_pos hstock]
          · rw [if_neg hstock, if_neg hstock]
            exact ih bs hrest _ _

/-- Item lists agreeing on product and quantity are equally empty. -/
theorem itemsAgree_isEmpty (l1 l2 : List SaleItemReq) (h : itemsAgree l1 l2 = true) :
    l1.isEmpty = l2.isEmpty := by
  cases l1 with
  | nil => cases l2 with
    | nil => rfl
    | cons b bs => simp [itemsAgree] at h
  | cons a as => cases l2 with
    | nil => simp [itemsAgree] at h
    | cons b bs => rfl

/-- Item lists agreeing on product and quantity produce the same quantity
validation errors. -/
theorem itemsAgree_quantityErrors :
    ∀ (l1 l2 : List SaleItemReq), itemsAgree l1 l2 = true →
    l1.filterMap (fun it =>
      if it.quantity < (1 : ℚ)/10 then some "Quantity must be greater than 0" else none) =
    l2.filterMap (fun it =>
      if it.quantity < (1 : ℚ)/10 then some "Quantity must be greater than 0" else none) := by
  intro l1
  induction l1 with
  | nil =>
    intro l2 hag
    cases l2 with
    | nil => rfl
    | cons b bs => simp [itemsAgree] at hag
  | cons a as ih =>
    intro l2 hag
    cases l2 with
    | nil => simp [itemsAgree] at hag
    | cons b bs =>
      simp only [itemsAgree, Bool.and_eq_true, beq_iff_eq, decide_eq_true_eq] at hag
      obtain ⟨⟨_, hq⟩, hrest⟩ := hag
      simp only [List.filterMap_cons, hq, ih bs hrest]

/-- Requests agreeing on the read fields produce the same field validation
errors. -/
theorem reqAgrees_errors (r1 r2 : SaleReq)
    (hcn : r1.customerName = r2.customerName) (hph : r1.customerPhone = r2.customerPhone)
    (hdi : r1.discount = r2.discount) (hpm : r1.paymentMethod = r2.paymentMethod)
    (hits : itemsAgree r1.items r2.items = true) :
    reqValidationErrors r1 = reqValidationErrors r2 := by
  simp only [reqValidationErrors]
  rw [hcn, hph, hdi, hpm, itemsAgree_isEmpty r1.items r2.items hits,
    itemsAgree_quantityErrors r1.items r2.items hits]

/-- C8: requests agreeing on customer, items (product and quantity),
discount, payment method and notes are handled identically against the same
store, whatever price fields the client smuggles into the body; and the
persisted line items of any created sale take their unit price from the
stored product, with the total recomputed server side as quantity times that
price. -/
theorem c8_server_side_pricing (st : Store) (r1 r2 : SaleReq) (u : Nat) (d : SaleDate)
    (rand : Nat → Nat) (hag : reqAgrees r1 r2 = true) :
    createSale st r1 u d rand = createSale st r2 u d rand ∧
    ((createSale st r1 u d rand).store.sales = st.sales ∨
     ∃ s, (createSale st r1 u d rand).store.sales = st.sales ++ [s] ∧
       ∀ si ∈ s.items, ∃ p, Product.findById st si.product = some p ∧
         si.unitPrice = p.pricePerUnit ∧ si.totalPrice = si.quantity * p.pricePerUnit) := by
  simp only [reqAgrees, Bool.and_eq_true, beq_iff_eq, decide_eq_true_eq] at hag
  obtain ⟨⟨⟨⟨⟨hcn, hph⟩, hdi⟩, hpm⟩, hnt⟩, hits⟩ := hag
  constructor
  · have hre := reqAgrees_errors r1 r2 hcn hph hdi hpm hits
    have hb := itemsAgree_buildSaleItems st r1.items r2.items hits 0 []
    simp only [createSale]
    rw [hre, hb, hcn, hph, hdi, hpm, hnt]
  · rcases createSale_sales_shape st r1 u d rand with h | ⟨s, heq, _, _, _, _, hprice⟩
    · exact Or.inl h
    · exact Or.inr ⟨s, heq, hprice⟩

/-- Witness for C8: a request with client-sent price fields yields the very
same response as the clean request, on a concrete store. -/
theorem c8_witness :
    createSale fxStore fxReqOne 7 fxDate (fun _ => 42) =
      createSale fxStore fxReqSpoof 7 fxDate (fun _ => 42) :=
  (c8_server_side_pricing fxStore fxReqOne fxReqSpoof 7 fxDate (fun _ => 42)
    (by with_unfolding_all decide)).1

/-- After a passing validation phase and a passing discount check, the
handler either fails with a server error or completes with 201, appending a
sale carrying the accumulated total, the requested discount and their
difference as final amount. -/
theorem createSale_post_validation (st : Store) (req : SaleReq) (u : Nat) (d : SaleDate)
    (rand : Nat → Nat) (t : ℚ) (xs : List SaleItem)
    (h1 : reqValidationErrors req = [])
    (hbuild : buildSaleItems st 0 [] req.items = .ok (t, xs))
    (hdn : ¬(t - req.discount.getD 0 < 0)) :
    (createSale st req u d rand).status = 500 ∨
    ((createSale st req u d rand).status = 201 ∧
      ∃ s, (createSale st req u d rand).store.sales = st.sales ++ [s] ∧
        s.totalAmount = t ∧ s.discount = req.discount.getD 0 ∧
        s.finalAmount = t - req.discount.getD 0) := by
  rw [createSale_eq_validated st req u d rand t xs h1 hbuild, if_neg hdn]
  set nsl := saleNumberLoop st.sales d rand 0 10 with hnsl
  have hne : nsl.2 ≠ "" := by
    obtain ⟨i, hi⟩ := saleNumberLoop_shape st.sales d rand 10 0
    rw [hnsl, hi]
    exact mkSaleNumber_ne_empty d (rand i)
  by_cases hten : 10 ≤ nsl.1
  · rw [if_pos hten]
    exact Or.inl rfl
  · rw [if_neg hten]
    set sale0 : Sale :=
      { id := st.nextSaleId, saleNumber := nsl.2,
        customerName := req.customerName.trim,
        customerPhone := req.customerPhone.map String.trim,
        items := xs, totalAmount := t, discount := req.discount.getD 0,
        finalAmount := t - req.discount.getD 0,
        paymentMethod := req.paymentMethod.getD "cash", status := "completed",
        soldBy := u, saleDate := d, notes := req.notes.map String.trim } with hs0
    have hhook : preSaveHook sale0 d (rand nsl.1) = sale0 := by
      rw [hs0]
      simp [preSaveHook, hne]
    rw [hhook]
    by_cases hsv : saleValid sale0 = true
    · rw [if_pos hsv]
      set st1 : Store :=
        { st with sales := st.sales ++ [sale0], nextSaleId := st.nextSaleId + 1 } with hst1
      match hproc : processItems req.customerName.trim u sale0.id st1 xs with
      | .ok st2 =>
        refine Or.inr ⟨rfl, sale0, ?_, by rw [hs0], by rw [hs0], by rw [hs0]⟩
        have := ((processItems_fields req.customerName.trim u sale0.id xs st1).1 st2 hproc).1
        simp only [this, hst1]
      | .error p =>
        obtain ⟨stP, m⟩ := p
        exact Or.inl rfl
    · rw [if_neg hsv]
      exact Or.inl rfl

/-- Unfolding equation of the spec precondition order on an empty item
list. -/
theorem specFirstFailure_empty (st : Store) (req : SaleReq)
    (hie : req.items.isEmpty = true) :
    specFirstFailure st req = some "At least one item is required" := by
  simp only [specFirstFailure]
  rw [if_pos hie]

/-- Unfolding equation of the spec precondition order at a failing item
check. -/
theorem specFirstFailure_item (st : Store) (req : SaleReq) (m : String)
    (hie : req.items.isEmpty = false) (hfe : firstItemError st req.items = some m) :
    specFirstFailure st req = some m := by
  simp only [specFirstFailure]
  rw [if_neg (by simp [hie]), hfe]

/-- Unfolding equation of the spec precondition order when every item check
passes. -/
theorem specFirstFailure_discount (st : Store) (req : SaleReq)
    (hie : req.items.isEmpty = false) (hfe : firstItemError st req.items = none) :
    specFirstFailure st req =
      (if totalOf st req.items - req.discount.getD 0 < 0 then
        some "Discount cannot exceed total amount"
      else none) := by
  simp only [specFirstFailure]
  rw [if_neg (by simp [hie]), hfe]

/-- Passing non-item field checks leave exactly the items-required error, and
only when the item list is empty. -/
theorem otherFields_errors (req : SaleReq) (hof : otherFieldChecksOK req = true) :
    reqValidationErrors req =
      if req.items.isEmpty then ["At least one item is required"] else [] := by
  obtain ⟨cn, ph, its, disc, pm, nts⟩ := req
  simp only [otherFieldChecksOK, Bool.and_eq_true, decide_eq_true_eq] at hof
  obtain ⟨⟨⟨⟨hcn, hph⟩, hqty⟩, hdi⟩, hpm⟩ := hof
  simp only [reqValidationErrors]
  have h1 : (if cn.trim.length < 2 then ["Customer name must be at least 2 characters"]
      else ([] : List String)) = [] := by
    rw [if_neg (by omega)]
  have h2 : (match ph with
      | some p => if 15 < p.length then ["Phone number must be at most 15 characters"]
        else ([] : List String)
      | none => ([] : List String)) = [] := by
    revert hph
    cases ph with
    | none => intro _; rfl
    | some p =>
      intro hp
      have hp2 : p.length ≤ 15 := of_decide_eq_true hp
      show (if 15 < p.length then ["Phone number must be at most 15 characters"]
        else ([] : List String)) = []
      rw [if_neg (by omega)]
  have h3 : its.filterMap (fun it =>
      if it.quantity < (1 : ℚ)/10 then some "Quantity must be greater than 0" else none) = [] := by
    rw [List.filterMap_eq_nil_iff]
    intro it hit
    simp only [List.all_eq_true, decide_eq_true_eq] at hqty
    rw [if_neg (not_lt.mpr (hqty it hit))]
  have h4 : (match disc with
      | some q => if q < 0 then ["Discount must be non-negative"] else ([] : List String)
      | none => ([] : List String)) = [] := by
    revert hdi
    cases disc with
    | none => intro _; rfl
    | some q =>
      intro hq
      have hq2 : (0 : ℚ) ≤ q := of_decide_eq_true hq
      show (if q < 0 then ["Discount must be non-negative"] else ([] : List String)) = []
      rw [if_neg (not_lt.mpr hq2)]
  have h5 : (match pm with
      | some p => if p ∈ ["cash", "card", "transfer", "credit"] then ([] : List String)
        else ["Invalid payment method"]
      | none => ([] : List String)) = [] := by
    revert hpm
    cases pm with
    | none => intro _; rfl
    | some p =>
      intro hp
      have hp2 : p ∈ ["cash", "card", "transfer", "credit"] := of_decide_eq_true hp
      show (if p ∈ ["cash", "card", "transfer", "credit"] then ([] : List String)
        else ["Invalid payment method"]) = []
      rw [if_pos hp2]
  rw [h1, h2, h3, h4, h5]
  simp

/-- C7: the handler checks its preconditions in the stated order, items
non-empty, then per item existence, active, stock, then non-negative final
amount, and its response reports exactly the error of the first failing
check, with no combined validation report over these checks; when none of
them fails the response is never a 400.  The field validators outside this
list are assumed to pass. -/
theorem c7_fail_fast_order (st : Store) (req : SaleReq) (u : Nat) (d : SaleDate)
    (rand : Nat → Nat) (hof : otherFieldChecksOK req = true) :
    (∀ m, specFirstFailure st req = some m →
      (createSale st req u d rand).status = 400 ∧
      (((createSale st req u d rand).message = m ∧ (createSale st req u d rand).errors = []) ∨
       ((createSale st req u d rand).message = "" ∧
        (createSale st req u d rand).errors = [m])) ∧
      (createSale st req u d rand).store = st ∧ (createSale st req u d rand).sale = none) ∧
    (specFirstFailure st req = none → (createSale st req u d rand).status ≠ 400) := by
  have herr := otherFields_errors req hof
  by_cases hie : req.items.isEmpty = true
  · have hne : (reqValidationErrors req).isEmpty = false := by
      rw [herr, if_pos hie]
      rfl
    have hcs := createSale_badfields st req u d rand hne
    constructor
    · intro m hm
      rw [specFirstFailure_empty st req hie] at hm
      injection hm with hm
      subst hm
      rw [hcs, herr, if_pos hie]
      exact ⟨rfl, Or.inr ⟨rfl, rfl⟩, rfl, rfl⟩
    · intro hnone
      rw [specFirstFailure_empty st req hie] at hnone
      exact absurd hnone (by simp)
  · have hie2 : req.items.isEmpty = false := by
      cases h : req.items.isEmpty with
      | true => exact absurd h hie
      | false => rfl
    have h1 : reqValidationErrors req = [] := by rw [herr, if_neg (by simp [hie2])]
    constructor
    · intro m hm
      match hfe : firstItemError st req.items with
      | some m2 =>
        have h := (specFirstFailure_item st req m2 hie2 hfe).symm.trans hm
        injection h with h
        subst h
        rw [createSale_builderr st req u d rand m2 h1
          (buildSaleItems_error st req.items m2 hfe 0 [])]
        exact ⟨rfl, Or.inl ⟨rfl, rfl⟩, rfl, rfl⟩
      | none =>
        have hall := (firstItemError_none st req.items).mp hfe
        have hbuild : buildSaleItems st 0 [] req.items =
            .ok (totalOf st req.items, req.items.map (builtItem st)) := by
          simpa using buildSaleItems_ok st req.items 0 [] hall
        rw [specFirstFailure_discount st req hie2 hfe] at hm
        by_cases hdn : totalOf st req.items - req.discount.getD 0 < 0
        · rw [if_pos hdn] at hm
          injection hm with hm
          subst hm
          rw [createSale_eq_validated st req u d rand (totalOf st req.items)
            (req.items.map (builtItem st)) h1 hbuild, if_pos hdn]
          exact ⟨rfl, Or.inl ⟨rfl, rfl⟩, rfl, rfl⟩
        · rw [if_neg hdn] at hm
          exact absurd hm (by simp)
    · intro hnone
      match hfe : firstItemError st req.items with
      | some m2 =>
        rw [specFirstFailure_item st req m2 hie2 hfe] at hnone
        exact absurd hnone (by simp)
      | none =>
        have hall := (firstItemError_none st req.items).mp hfe
        have hbuild : buildSaleItems st 0 [] req.items =
            .ok (totalOf st req.items, req.items.map (builtItem st)) := by
          simpa using buildSaleItems_ok st req.items 0 [] hall
        rw [specFirstFailure_discount st req hie2 hfe] at hnone
        have hdn : ¬(totalOf st req.items - req.discount.getD 0 < 0) := by
          intro hc
          rw [if_pos hc] at hnone
          exact absurd hnone (by simp)
        rcases createSale_post_validation st req u d rand (totalOf st req.items)
          (req.items.map (builtItem st)) h1 hbuild hdn with h | ⟨h, _⟩ <;>
          · rw [h]
            omega

/-- Witness for C7 at a concrete request whose third check, insufficient
stock, is the first to fail. -/
theorem c7_witness :
    (createSale fxStore fxReqExcess 7 fxDate (fun _ => 42)).status = 400 ∧
    (createSale fxStore fxReqExcess 7 fxDate (fun _ => 42)).message =
      insufficientMsg fxProd ∧
    (createSale fxStore fxReqExcess 7 fxDate (fun _ => 42)).store = fxStore := by
  have h := (c7_fail_fast_order fxStore fxReqExcess 7 fxDate (fun _ => 42)
    (by with_unfolding_all decide)).1 (insufficientMsg fxProd)
    (by with_unfolding_all decide)
  rcases h with ⟨h1, h2 | h2, h3, _⟩
  · exact ⟨h1, h2.1, h3⟩
  · exact absurd h2.1 (by with_unfolding_all decide)

/-- C5, amended: with no rounding anywhere, the final amount of every
created sale equals the accumulated total minus the discount exactly, and
the handler rejects with the discount message exactly when that difference
is negative. -/
theorem c5_final_amount (st : Store) (req : SaleReq) (u : Nat) (d : SaleDate)
    (rand : Nat → Nat) (t : ℚ) (xs : List SaleItem)
    (h1 : reqValidationErrors req = [])
    (hbuild : buildSaleItems st 0 [] req.items = .ok (t, xs)) :
    (((createSale st req u d rand).status = 400 ∧
      (createSale st req u d rand).message = "Discount cannot exceed total amount") ↔
      t - req.discount.getD 0 < 0) ∧
    ((createSale st req u d rand).status = 201 →
      ∃ s, (createSale st req u d rand).store.sales = st.sales ++ [s] ∧
        s.totalAmount = t ∧ s.discount = req.discount.getD 0 ∧
        s.finalAmount = t - req.discount.getD 0) := by
  by_cases hdn : t - req.discount.getD 0 < 0
  · rw [createSale_eq_validated st req u d rand t xs h1 hbuild, if_pos hdn]
    constructor
    · exact ⟨fun _ => hdn, fun _ => ⟨rfl, rfl⟩⟩
    · intro hc
      exact absurd hc (by simp)
  · rcases createSale_post_validation st req u d rand t xs h1 hbuild hdn with
      h5 | ⟨h201, s, hs, ht, hd, hf⟩
    · constructor
      · constructor
        · intro hc
          rw [h5] at hc
          omega
        · intro hc
          exact absurd hc hdn
      · intro hc
        rw [h5] at hc
        omega
    · constructor
      · constructor
        · intro hc
          rw [h201] at hc
          omega
        · intro hc
          exact absurd hc hdn
      · intro _
        exact ⟨s, hs, ht, hd, hf⟩

/-- Counterexample for C5 as stated: a half-yard sale at unit price five is
created with final amount five halves, which differs from the rounded total
minus the discount. -/
theorem c5_counterexample :
    (createSale fxStoreP5 fxReqHalf 7 fxDate (fun _ => 42)).status = 201 ∧
    ((createSale fxStoreP5 fxReqHalf 7 fxDate (fun _ => 42)).store.sales.map
      Sale.finalAmount) = [5/2] ∧
    ¬((5/2 : ℚ) = ((jsRound (5/2) : ℚ) - 0)) := by
  refine ⟨by with_unfolding_all decide, by with_unfolding_all decide, ?_⟩
  intro hc
  rw [show jsRound (5/2 : ℚ) = 3 by with_unfolding_all decide] at hc
  norm_num at hc

/-- Witness for C5 at a concrete passing request. -/
theorem c5_witness :
    ∃ s, (createSale fxStore fxReqOne 7 fxDate (fun _ => 42)).store.sales =
        fxStore.sales ++ [s] ∧
      s.totalAmount = totalOf fxStore fxReqOne.items ∧
      s.discount = fxReqOne.discount.getD 0 ∧
      s.finalAmount = totalOf fxStore fxReqOne.items - fxReqOne.discount.getD 0 :=
  (c5_final_amount fxStore fxReqOne 7 fxDate (fun _ => 42)
    (totalOf fxStore fxReqOne.items) (fxReqOne.items.map (builtItem fxStore))
    (by with_unfolding_all rfl) (by with_unfolding_all rfl)).2
    (by with_unfolding_all decide)

/-- C4, amended: the generator makes at most ten draws and never reads the
stream beyond them; the workflow proceeds with the first fresh candidate only
when one appears within the first nine draws; when the first nine draws all
collide the request fails with 500 and an unchanged store, even though a
tenth candidate is generated and may be fresh. -/
theorem c4_sale_number_budget (st : Store) (req : SaleReq) (u : Nat) (d : SaleDate)
    (rand : Nat → Nat)
    (h1 : reqValidationErrors req = [])
    (h2 : ∀ it ∈ req.items, itemOKb st it = true)
    (h3 : 0 ≤ totalOf st req.items - req.discount.getD 0)
    (h5 : storeProductsValid st = true)
    (h6 : (req.items.map SaleItemReq.productId).Nodup)
    (h7 : ∀ s ∈ st.sales, s.id ≠ st.nextSaleId) :
    (∀ rand2 : Nat → Nat, (∀ i, i < 10 → rand i = rand2 i) →
      saleNumberLoop st.sales d rand 0 10 = saleNumberLoop st.sales d rand2 0 10) ∧
    (saleNumberLoop st.sales d rand 0 10).1 ≤ 10 ∧
    ((∀ i, i < 9 →
        (st.sales.find? (fun s => s.saleNumber == mkSaleNumber d (rand i))).isNone = false) →
      createSale st req u d rand =
        { status := 500, message := "Could not generate unique sale number", errors := [],
          sale := none, store := st }) ∧
    (∀ i0, i0 < 9 →
      (st.sales.find? (fun s => s.saleNumber == mkSaleNumber d (rand i0))).isNone = true →
      (∀ j, j < i0 →
        (st.sales.find? (fun s => s.saleNumber == mkSaleNumber d (rand j))).isNone = false) →
      (createSale st req u d rand).status = 201 ∧
      ∃ s, (createSale st req u d rand).store.sales = st.sales ++ [s] ∧
        s.saleNumber = mkSaleNumber d (rand i0)) := by
  have hbuild : buildSaleItems st 0 [] req.items =
      .ok (totalOf st req.items, req.items.map (builtItem st)) := by
    simpa using buildSaleItems_ok st req.items 0 [] h2
  refine ⟨?_, ?_, ?_, ?_⟩
  · intro rand2 hagree
    exact saleNumberLoop_rand_congr st.sales d rand rand2 10 0 (by omega) rfl hagree
  · exact saleNumberLoop_attempts_le st.sales d rand 10 0
  · intro hcoll
    have hten := saleNumberLoop_exhaust st.sales d rand 10 0 rfl
      (fun i _ h9 => hcoll i h9)
    rw [createSale_eq_validated st req u d rand (totalOf st req.items)
      (req.items.map (builtItem st)) h1 hbuild, if_neg (not_lt.mpr h3),
      if_pos (by omega : 10 ≤ (saleNumberLoop st.sales d rand 0 10).1)]
  · intro i0 hi9 hfresh hmin
    have hloop := saleNumberLoop_success st.sales d rand 10 0 i0 rfl (Nat.zero_le i0)
      hi9 hfresh (fun j _ hj => hmin j hj)
    have h4 : (saleNumberLoop st.sales d rand 0 10).1 < 10 := by
      rw [hloop]
      omega
    obtain ⟨st2, heq, hsales, _⟩ :=
      createSale_success st req u d rand h1 h2 h3 h4 h5 h6 h7
    constructor
    · rw [heq]
    · have hs2 : (createSale st req u d rand).store.sales = st.sales ++
          [{ id := st.nextSaleId, saleNumber := (saleNumberLoop st.sales d rand 0 10).2,
             customerName := req.customerName.trim,
             customerPhone := req.customerPhone.map String.trim,
             items := req.items.map (builtItem st), totalAmount := totalOf st req.items,
             discount := req.discount.getD 0,
             finalAmount := totalOf st req.items - req.discount.getD 0,
             paymentMethod := req.paymentMethod.getD "cash", status := "completed",
             soldBy := u, saleDate := d, notes := req.notes.map String.trim }] := by
        rw [heq]
        exact hsales
      refine ⟨_, hs2, ?_⟩
      show (saleNumberLoop st.sales d rand 0 10).2 = mkSaleNumber d (rand i0)
      rw [hloop]

set_option maxRecDepth 4000 in
/-- Counterexample for C4 as stated: against nine stored sales colliding
with the first nine draws, the tenth draw yields a candidate no sale carries,
yet the handler answers 500 and creates nothing. -/
theorem c4_counterexample :
    (fxC4Store.sales.find? (fun s => s.saleNumber == mkSaleNumber fxDate 9)).isNone = true ∧
    saleNumberLoop fxC4Store.sales fxDate (fun i => i) 0 10 = (10, mkSaleNumber fxDate 9) ∧
    createSale fxC4Store fxReqOne 7 fxDate (fun i => i) =
      { status := 500, message := "Could not generate unique sale number", errors := [],
        sale := none, store := fxC4Store } := by
  refine ⟨by with_unfolding_all decide, by with_unfolding_all decide,
    by with_unfolding_all decide⟩

/-- Witness for C4: on a store with no sales the first draw is fresh and the
created sale carries its number. -/
theorem c4_witness :
    (createSale fxStore fxReqOne 7 fxDate (fun _ => 42)).status = 201 ∧
    ∃ s, (createSale fxStore fxReqOne 7 fxDate (fun _ => 42)).store.sales =
        fxStore.sales ++ [s] ∧ s.saleNumber = mkSaleNumber fxDate 42 :=
  (c4_sale_number_budget fxStore fxReqOne 7 fxDate (fun _ => 42)
    (by with_unfolding_all rfl) (by with_unfolding_all decide)
    (by with_unfolding_all decide) (by with_unfolding_all decide)
    (by with_unfolding_all decide) (by with_unfolding_all decide)).2.2.2 0
    (by omega) (by with_unfolding_all decide) (fun j hj => absurd hj (by omega))

/-- Items that pass their checks do not stop the first-failure walk. -/
theorem firstItemError_append (st : Store) :
    ∀ (pre rest : List SaleItemReq), (∀ x ∈ pre, itemOKb st x = true) →
    firstItemError st (pre ++ rest) = firstItemError st rest := by
  intro pre
  induction pre with
  | nil => intro rest _; rfl
  | cons a as ih =>
    intro rest hok
    have ha := hok a (List.mem_cons_self a as)
    match hfind : Product.findById st a.productId with
    | none =>
      rw [itemOKb_none st a hfind] at ha
      exact absurd ha (by simp)
    | some p =>
      rw [itemOKb_some st a p hfind] at ha
      simp only [Bool.and_eq_true, decide_eq_true_eq] at ha
      rw [List.cons_append, firstItemError_cons_some st a (as ++ rest) p hfind,
        if_neg (by simp [ha.1]), if_neg (not_lt.mpr ha.2)]
      exact ih rest (fun x hx => hok x (List.mem_cons_of_mem a hx))

/-- C3, amended: a request containing an item whose quantity exceeds the
available stock is always rejected with 400, no stock mutated, no sale
created; and when every item before the offending one passes its checks and
the offending product exists and is active, the message is the
insufficient-stock message naming product, available stock and unit. -/
theorem c3_insufficient_stock (st : Store) (req : SaleReq) (u : Nat) (d : SaleDate)
    (rand : Nat → Nat) :
    ((∃ it ∈ req.items, ∃ p, Product.findById st it.productId = some p ∧
        p.currentStock < it.quantity) →
      (createSale st req u d rand).status = 400 ∧
      (createSale st req u d rand).store = st ∧
      (createSale st req u d rand).sale = none) ∧
    (reqValidationErrors req = [] →
      ∀ (pre : List SaleItemReq) (it : SaleItemReq) (post : List SaleItemReq) (p : Product),
      req.items = pre ++ it :: post → (∀ x ∈ pre, itemOKb st x = true) →
      Product.findById st it.productId = some p → p.isActive = true →
      p.currentStock < it.quantity →
      createSale st req u d rand =
        { status := 400, message := insufficientMsg p, errors := [], sale := none,
          store := st }) := by
  constructor
  · rintro ⟨it, hit, p, hfind, hover⟩
    by_cases hf : (reqValidationErrors req).isEmpty = false
    · rw [createSale_badfields st req u d rand hf]
      exact ⟨rfl, rfl, rfl⟩
    · have h1 : reqValidationErrors req = [] := by
        cases hl : reqValidationErrors req with
        | nil => rfl
        | cons a l => rw [hl] at hf; simp at hf
      match hfe : firstItemError st req.items with
      | some m =>
        rw [createSale_builderr st req u d rand m h1
          (buildSaleItems_error st req.items m hfe 0 [])]
        exact ⟨rfl, rfl, rfl⟩
      | none =>
        have hok := (firstItemError_none st req.items).mp hfe it hit
        rw [itemOKb_some st it p hfind] at hok
        simp only [Bool.and_eq_true, decide_eq_true_eq] at hok
        exact absurd hover (not_lt.mpr hok.2)
  · intro h1 pre it post p hsplit hpre hfind hact hover
    have hfe : firstItemError st req.items = some (insufficientMsg p) := by
      rw [hsplit, firstItemError_append st pre (it :: post) hpre,
        firstItemError_cons_some st it post p hfind, if_neg (by simp [hact]),
        if_pos hover]
    exact createSale_builderr st req u d rand (insufficientMsg p) h1
      (buildSaleItems_error st req.items (insufficientMsg p) hfe 0 [])

set_option maxRecDepth 4000 in
/-- Counterexample for C3 as stated: the second item exceeds the stock, but
the earlier unknown-product item fails first, so the 400 message does not
mention insufficient stock. -/
theorem c3_counterexample :
    (∃ it ∈ fxReqMasked.items, ∃ p, Product.findById fxStore it.productId = some p ∧
      p.currentStock < it.quantity) ∧
    (createSale fxStore fxReqMasked 7 fxDate (fun _ => 42)).status = 400 ∧
    (createSale fxStore fxReqMasked 7 fxDate (fun _ => 42)).message =
      "Product not found: 99" ∧
    ¬("Insufficient stock".data <:+:
      (createSale fxStore fxReqMasked 7 fxDate (fun _ => 42)).message.data) := by
  refine ⟨⟨fxItem 15, by with_unfolding_all decide, fxProd, by with_unfolding_all decide,
    by with_unfolding_all decide⟩, by with_unfolding_all decide,
    by with_unfolding_all decide, by with_unfolding_all decide⟩

/-- Witness for C3 at a concrete single-item request exceeding the stock. -/
theorem c3_witness :
    createSale fxStore fxReqExcess 7 fxDate (fun _ => 42) =
      { status := 400, message := insufficientMsg fxProd, errors := [], sale := none,
        store := fxStore } :=
  (c3_insufficient_stock fxStore fxReqExcess 7 fxDate (fun _ => 42)).2
    (by with_unfolding_all rfl) [] (fxItem 15) [] fxProd rfl
    (fun x hx => absurd hx (List.not_mem_nil x))
    (by with_unfolding_all rfl) rfl (by with_unfolding_all decide)

/-- A product with negative stock fails its schema validation. -/
theorem productValid_neg (p : Product) (h : p.currentStock < 0) :
    productValid p = false := by
  simp [productValid, not_le.mpr h]

/-- Two line items on the same product, each individually within the stock
but together beyond it: the first decrement commits, with its ledger entry,
and the second one fails its save, surfacing the catch-all error with the
partial state. -/
theorem processItems_two_overdraw (cn : String) (u sid : Nat) (st : Store)
    (si1 si2 : SaleItem) (p : Product)
    (hsp : si2.product = si1.product)
    (hfind : Product.findById st si1.product = some p)
    (hpv : productValid p = true)
    (hq1 : si1.quantity ≤ p.currentStock)
    (hneg : p.currentStock - si1.quantity - si2.quantity < 0) :
    ∃ stA, processItems cn u sid st [si1, si2] = .error (stA, "Server error during sale") ∧
      stA.sales = st.sales ∧ stA.users = st.users ∧ stA.nextSaleId = st.nextSaleId ∧
      Product.findById stA si1.product =
        some { p with currentStock := p.currentStock - si1.quantity } ∧
      stA.history = st.history ++ [histOfItem cn u sid st si1] := by
  have hsub : (0 : ℚ) ≤ p.currentStock - si1.quantity := by linarith
  have hpv2 := productValid_decrement p si1.quantity hpv hsub
  have hname : p.name ≠ "" := by
    simp only [productValid, Bool.and_eq_true, decide_eq_true_eq, bne_iff_ne, ne_eq] at hpv
    tauto
  have hprev : (0 : ℚ) ≤ p.currentStock := by
    simp only [productValid, Bool.and_eq_true, decide_eq_true_eq, bne_iff_ne, ne_eq] at hpv
    tauto
  have hhv := historyValid_sold cn u sid si1.product p.name p.unit si1.quantity p.currentStock
    hname hprev hsub
  refine ⟨{ updateProduct st si1.product
      { p with currentStock := p.currentStock - si1.quantity } with
      history := st.history ++
        [{ product := si1.product, productName := p.name, action := "sold",
           quantity := si1.quantity, previousStock := p.currentStock,
           newStock := p.currentStock - si1.quantity, unit := p.unit,
           performedBy := u, sale := some sid, notes := "Sold to " ++ cn }] },
    ?_, rfl, rfl, rfl, ?_, ?_⟩
  · rw [processItems_cons_some cn u sid st si1 [si2] p hfind, if_pos hpv2, if_pos hhv]
    have hfind2 : Product.findById
        { updateProduct st si1.product
            { p with currentStock := p.currentStock - si1.quantity } with
          history := st.history ++
            [{ product := si1.product, productName := p.name, action := "sold",
               quantity := si1.quantity, previousStock := p.currentStock,
               newStock := p.currentStock - si1.quantity, unit := p.unit,
               performedBy := u, sale := some sid, notes := "Sold to " ++ cn }] }
        si2.product = some { p with currentStock := p.currentStock - si1.quantity } := by
      rw [hsp]
      exact (findById_congr _ _ si1.product rfl).trans
        (findById_updateProduct_self st si1.product p _ hfind)
    rw [processItems_cons_some cn u sid _ si2 []
      { p with currentStock := p.currentStock - si1.quantity } hfind2]
    rw [if_neg (by
      rw [productValid_neg _ hneg]
      simp)]
  · exact (findById_congr _ _ si1.product rfl).trans
      (findById_updateProduct_self st si1.product p _ hfind)
  · rw [histOfItem_some cn u sid st si1 p hfind]

/-- C2, amended: two line items on one product, each within the current
stock but together beyond it, pass the validation loop, which compares each
quantity against the same un-decremented stock; the handler persists the
sale, commits the first decrement and its ledger entry, and then fails with
HTTP 500 when the second decrement drives the stock negative and the save is
rejected, leaving the partial state committed. -/
theorem c2_duplicate_overdraw (st : Store) (req : SaleReq) (u : Nat) (d : SaleDate)
    (rand : Nat → Nat) (pid : Nat) (p : Product) (it1 it2 : SaleItemReq)
    (h1 : reqValidationErrors req = [])
    (hitems : req.items = [it1, it2])
    (hp1 : it1.productId = pid) (hp2 : it2.productId = pid)
    (hfind : Product.findById st pid = some p)
    (hact : p.isActive = true)
    (h5 : storeProductsValid st = true)
    (hq1 : it1.quantity ≤ p.currentStock)
    (hq2 : it2.quantity ≤ p.currentStock)
    (hover : p.currentStock < it1.quantity + it2.quantity)
    (h3 : 0 ≤ totalOf st req.items - req.discount.getD 0)
    (h4 : (saleNumberLoop st.sales d rand 0 10).1 < 10) :
    (createSale st req u d rand).status = 500 ∧
    (createSale st req u d rand).message = "Server error during sale" ∧
    (∃ s, (createSale st req u d rand).store.sales = st.sales ++ [s]) ∧
    Product.findById (createSale st req u d rand).store pid =
      some { p with currentStock := p.currentStock - it1.quantity } ∧
    (createSale st req u d rand).store.history =
      st.history ++ [histOf req.customerName.trim u st.nextSaleId st it1] := by
  have h2 : ∀ it ∈ req.items, itemOKb st it = true := by
    intro it hit
    rw [hitems] at hit
    rcases List.mem_cons.mp hit with rfl | hit2
    · rw [itemOKb_some st it p (hp1 ▸ hfind)]
      simp [hact, hq1]
    · rcases List.mem_cons.mp hit2 with rfl | hit3
      · rw [itemOKb_some st it p (hp2 ▸ hfind)]
        simp [hact, hq2]
      · exact absurd hit3 (List.not_mem_nil it)
  have hbuild : buildSaleItems st 0 [] req.items =
      .ok (totalOf st req.items, req.items.map (builtItem st)) := by
    simpa using buildSaleItems_ok st req.items 0 [] h2
  rw [createSale_eq_validated st req u d rand (totalOf st req.items)
    (req.items.map (builtItem st)) h1 hbuild, if_neg (not_lt.mpr h3),
    if_neg (not_le.mpr h4)]
  set nsl := saleNumberLoop st.sales d rand 0 10 with hnsl
  have hne : nsl.2 ≠ "" := by
    obtain ⟨i, hi⟩ := saleNumberLoop_shape st.sales d rand 10 0
    rw [hnsl, hi]
    exact mkSaleNumber_ne_empty d (rand i)
  set sale0 : Sale :=
    { id := st.nextSaleId, saleNumber := nsl.2,
      customerName := req.customerName.trim,
      customerPhone := req.customerPhone.map String.trim,
      items := req.items.map (builtItem st), totalAmount := totalOf st req.items,
      discount := req.discount.getD 0,
      finalAmount := totalOf st req.items - req.discount.getD 0,
      paymentMethod := req.paymentMethod.getD "cash", status := "completed",
      soldBy := u, saleDate := d, notes := req.notes.map String.trim } with hs0
  have hid : sale0.id = st.nextSaleId := by rw [hs0]
  have hhook : preSaveHook sale0 d (rand nsl.1) = sale0 := by
    rw [hs0]
    simp [preSaveHook, hne]
  have hsv : saleValid sale0 = true := by
    rw [hs0]
    exact saleValid_discharge st req u d nsl.2 h1 h2 h3 h5 hne
  rw [hhook, if_pos hsv]
  set st1 : Store :=
    { st with sales := st.sales ++ [sale0], nextSaleId := st.nextSaleId + 1 } with hst1
  have hxs : req.items.map (builtItem st) = [builtItem st it1, builtItem st it2] := by
    rw [hitems]
    rfl
  have hb1p : (builtItem st it1).product = pid := (builtItem_product st it1).trans hp1
  have hb2p : (builtItem st it2).product = pid := (builtItem_product st it2).trans hp2
  have hfind1 : Product.findById st1 (builtItem st it1).product = some p := by
    rw [hb1p]
    exact (findById_congr st1 st pid rfl).trans hfind
  obtain ⟨stA, hrun, hsalesA, _, _, hfindA, hhistA⟩ :=
    processItems_two_overdraw req.customerName.trim u sale0.id st1
      (builtItem st it1) (builtItem st it2) p (hb2p.trans hb1p.symm) hfind1
      (findById_valid st pid p h5 hfind)
      (by rw [builtItem_quantity st it1]; exact hq1)
      (by rw [builtItem_quantity st it1, builtItem_quantity st it2]; linarith)
  rw [hxs, hrun]
  refine ⟨rfl, rfl, ⟨sale0, ?_⟩, ?_, ?_⟩
  · show stA.sales = st.sales ++ [sale0]
    rw [hsalesA, hst1]
  · show Product.findById stA pid = some { p with currentStock := p.currentStock - it1.quantity }
    rw [← hb1p, hfindA, builtItem_quantity st it1]
  · show stA.history = st.history ++ [histOf req.customerName.trim u st.nextSaleId st it1]
    rw [hhistA]
    have hh : st1.history = st.history := by rw [hst1]
    rw [hh]
    congr 1
    rw [histOfItem_builtItem req.customerName.trim u sale0.id st1 st (by rw [hst1]) it1, hid]

/-- Counterexample for C2 as stated: stock five with items of three and four
on the same product is not rejected with 400; the handler answers 500 after
mutating the stock of the first item. -/
theorem c2_counterexample :
    (∀ it ∈ fxReqTwo.items, itemOKb fxStore5 it = true) ∧
    ((5 : ℚ) < 3 + 4) ∧
    (createSale fxStore5 fxReqTwo 7 fxDate (fun _ => 42)).status = 500 ∧
    ¬((createSale fxStore5 fxReqTwo 7 fxDate (fun _ => 42)).status = 400) ∧
    ((createSale fxStore5 fxReqTwo 7 fxDate (fun _ => 42)).store.products.map
      (fun e => e.2.currentStock)) = [2] ∧
    ¬((2 : ℚ) = 5) := by
  with_unfolding_all decide

/-- Witness for C2 at the concrete five-yard store. -/
theorem c2_witness :
    (createSale fxStore5 fxReqTwo 7 fxDate (fun _ => 42)).status = 500 ∧
    (createSale fxStore5 fxReqTwo 7 fxDate (fun _ => 42)).message =
      "Server error during sale" := by
  have h := c2_duplicate_overdraw fxStore5 fxReqTwo 7 fxDate (fun _ => 42) 1
    { fxProd with totalStock := 5, currentStock := 5 } (fxItem 3) (fxItem 4)
    (by with_unfolding_all rfl) rfl rfl rfl (by with_unfolding_all rfl) rfl
    (by with_unfolding_all decide) (by with_unfolding_all decide)
    (by with_unfolding_all decide) (by with_unfolding_all decide)
    (by with_unfolding_all decide) (by with_unfolding_all decide)
  exact ⟨h.1, h.2.1⟩

/-- C1, amended: under the stated preconditions and pairwise distinct
products across the line items, a successful sale decrements each referenced
product by exactly its requested quantity and appends exactly one sold
ledger entry per line item, recording the pre-decrement stock, the
decremented stock, and a back-reference to the created sale. -/
theorem c1_stock_and_ledger (st : Store) (req : SaleReq) (u : Nat) (d : SaleDate)
    (rand : Nat → Nat)
    (h1 : reqValidationErrors req = [])
    (h2 : ∀ it ∈ req.items, itemOKb st it = true)
    (h3 : 0 ≤ totalOf st req.items - req.discount.getD 0)
    (h5 : storeProductsValid st = true)
    (h6 : (req.items.map SaleItemReq.productId).Nodup)
    (h7 : ∀ s ∈ st.sales, s.id ≠ st.nextSaleId)
    (hsucc : (createSale st req u d rand).status = 201) :
    (∀ it ∈ req.items, ∀ p, Product.findById st it.productId = some p →
      Product.findById (createSale st req u d rand).store it.productId =
        some { p with currentStock := p.currentStock - it.quantity }) ∧
    (createSale st req u d rand).store.history =
      st.history ++ req.items.map (histOf req.customerName.trim u st.nextSaleId st) ∧
    (∀ it ∈ req.items, ∀ p, Product.findById st it.productId = some p →
      histOf req.customerName.trim u st.nextSaleId st it =
        { product := it.productId, productName := p.name, action := "sold",
          quantity := it.quantity, previousStock := p.currentStock,
          newStock := p.currentStock - it.quantity, unit := p.unit,
          performedBy := u, sale := some st.nextSaleId,
          notes := "Sold to " ++ req.customerName.trim }) ∧
    (∃ s, (createSale st req u d rand).store.sales = st.sales ++ [s] ∧
      s.id = st.nextSaleId) := by
  have hbuild : buildSaleItems st 0 [] req.items =
      .ok (totalOf st req.items, req.items.map (builtItem st)) := by
    simpa using buildSaleItems_ok st req.items 0 [] h2
  by_cases hten : 10 ≤ (saleNumberLoop st.sales d rand 0 10).1
  · exfalso
    rw [createSale_eq_validated st req u d rand (totalOf st req.items)
      (req.items.map (builtItem st)) h1 hbuild, if_neg (not_lt.mpr h3),
      if_pos hten] at hsucc
    simp at hsucc
  · obtain ⟨st2, heq, hsales, _, _, hhist, hdec, _⟩ :=
      createSale_success st req u d rand h1 h2 h3 (not_le.mp hten) h5 h6 h7
    rw [heq]
    refine ⟨hdec, hhist, ?_, ?_⟩
    · intro it hit p hp
      exact histOf_some req.customerName.trim u st.nextSaleId st it p hp
    · exact ⟨_, hsales, rfl⟩

/-- Counterexample for C1 as stated: with two line items on one product,
each passing the claimed preconditions, the final stock is the old stock
minus the sum of the two quantities, not the old stock minus either item
quantity. -/
theorem c1_counterexample :
    (∀ it ∈ fxReqTwo.items, itemOKb fxStore it = true) ∧
    0 ≤ totalOf fxStore fxReqTwo.items - fxReqTwo.discount.getD 0 ∧
    (createSale fxStore fxReqTwo 7 fxDate (fun _ => 42)).status = 201 ∧
    ((createSale fxStore fxReqTwo 7 fxDate (fun _ => 42)).store.products.map
      (fun e => e.2.currentStock)) = [3] ∧
    ¬((3 : ℚ) = 10 - 3) ∧ ¬((3 : ℚ) = 10 - 4) := by
  with_unfolding_all decide

/-- Witness for C1 at a concrete single-item sale: ten yards drop to
seven. -/
theorem c1_witness :
    Product.findById (createSale fxStore fxReqOne 7 fxDate (fun _ => 42)).store 1 =
      some { fxProd with currentStock := fxProd.currentStock - (fxItem 3).quantity } := by
  have h := c1_stock_and_ledger fxStore fxReqOne 7 fxDate (fun _ => 42)
    (by with_unfolding_all rfl) (by with_unfolding_all decide)
    (by with_unfolding_all decide) (by with_unfolding_all decide)
    (by with_unfolding_all decide) (by with_unfolding_all decide)
    (by with_unfolding_all decide)
  exact h.1 (fxItem 3) (by with_unfolding_all decide) fxProd (by with_unfolding_all rfl)

/-- The fueled core decimal printer produces the reference digit list when
given enough fuel. -/
theorem toDigitsCore_natChars :
    ∀ (fuel n : Nat) (acc : List Char), n < fuel →
    Nat.toDigitsCore 10 fuel n acc = natChars n ++ acc := by
  intro fuel
  induction fuel with
  | zero => intro n acc h; omega
  | succ fuel ih =>
    intro n acc h
    show (if n / 10 = 0 then Nat.digitChar (n % 10) :: acc
      else Nat.toDigitsCore 10 fuel (n / 10) (Nat.digitChar (n % 10) :: acc)) =
      natChars n ++ acc
    by_cases hz : n / 10 = 0
    · rw [if_pos hz, natChars, dif_pos hz]
      rfl
    · rw [if_neg hz, natChars, dif_neg hz]
      rw [ih (n / 10) (Nat.digitChar (n % 10) :: acc) (by omega)]
      simp

/-- Decimal printing of a natural number yields exactly the reference digit
list. -/
theorem nat_repr_data (n : Nat) : (Nat.repr n).data = natChars n := by
  show (Nat.toDigits 10 n).asString.data = natChars n
  rw [Nat.toDigits, toDigitsCore_natChars (n + 1) n [] (Nat.lt_succ_self n)]
  show natChars n ++ [] = natChars n
  simp

/-- Printing a natural number with toString is the core decimal printer. -/
theorem toString_nat_eq (n : Nat) : toString n = Nat.repr n := rfl

/-- Digit characters of values below ten are digits. -/
theorem digitChar_isDigit (m : Nat) (h : m < 10) : (Nat.digitChar m).isDigit = true := by
  have hall : ∀ m2, m2 < 10 → (Nat.digitChar m2).isDigit = true := by decide
  exact hall m h

/-- Every character of the reference digit list is a digit. -/
theorem natChars_digits (n : Nat) : ∀ c ∈ natChars n, c.isDigit = true := by
  induction n using Nat.strong_induction_on with
  | _ n ih =>
    rw [natChars]
    by_cases hz : n / 10 = 0
    · rw [dif_pos hz]
      intro c hc
      simp only [List.mem_singleton] at hc
      subst hc
      exact digitChar_isDigit (n % 10) (Nat.mod_lt n (by omega))
    · rw [dif_neg hz]
      intro c hc
      rcases List.mem_append.mp hc with hc2 | hc2
      · exact ih (n / 10) (by omega) c hc2
      · simp only [List.mem_singleton] at hc2
        subst hc2
        exact digitChar_isDigit (n % 10) (Nat.mod_lt n (by omega))

/-- Exact length of the reference digit list from the magnitude of the
number. -/
theorem natChars_len : ∀ (k n : Nat), 10 ^ k ≤ n → n < 10 ^ (k + 1) →
    (natChars n).length = k + 1 := by
  intro k
  induction k with
  | zero =>
    intro n h1 h2
    norm_num at h1 h2
    rw [natChars, dif_pos (by omega)]
    rfl
  | succ k ih =>
    intro n h1 h2
    have hp : (10 : Nat) ^ (k + 1) = 10 ^ k * 10 := pow_succ 10 k
    have hp2 : (10 : Nat) ^ (k + 2) = 10 ^ (k + 1) * 10 := pow_succ 10 (k + 1)
    have h10 : 10 ≤ n := by
      have : (10 : Nat) ≤ 10 ^ (k + 1) := by
        calc (10 : Nat) = 10 ^ 1 := (pow_one 10).symm
        _ ≤ 10 ^ (k + 1) := Nat.pow_le_pow_right (by omega) (by omega)
      omega
    rw [natChars, dif_neg (by omega)]
    have hb1 : 10 ^ k ≤ n / 10 := by
      rw [Nat.le_div_iff_mul_le (by omega)]
      omega
    have hb2 : n / 10 < 10 ^ (k + 1) := by
      rw [Nat.div_lt_iff_lt_mul (by omega)]
      omega
    rw [List.length_append, ih (n / 10) hb1 hb2]
    rfl

/-- Upper bound on the length of the reference digit list. -/
theorem natChars_len_le : ∀ (k n : Nat), 1 ≤ k → n < 10 ^ k →
    (natChars n).length ≤ k := by
  intro k
  induction k with
  | zero => intro n h _; omega
  | succ k ih =>
    intro n _ h2
    by_cases hz : n / 10 = 0
    · rw [natChars, dif_pos hz]
      simp
    · rw [natChars, dif_neg hz]
      have hp : (10 : Nat) ^ (k + 1) = 10 ^ k * 10 := pow_succ 10 k
      have hb2 : n / 10 < 10 ^ k := by
        rw [Nat.div_lt_iff_lt_mul (by omega)]
        omega
      have hk1 : 1 ≤ k := by
        by_contra hc
        have hk0 : k = 0 := by omega
        subst hk0
        simp at hb2
        omega
      have := ih (n / 10) hk1 hb2
      rw [List.length_append]
      simpa using this

/-- Zero-padding the decimal printing of a number below the width bound
yields exactly the requested width, all digits. -/
theorem padStart0_repr (k n : Nat) (hk : 1 ≤ k) (h : n < 10 ^ k) :
    (padStart0 k (Nat.repr n)).data.length = k ∧
    ∀ c ∈ (padStart0 k (Nat.repr n)).data, c.isDigit = true := by
  have hdata : (Nat.repr n).data = natChars n := nat_repr_data n
  have hslen : (Nat.repr n).length = (natChars n).length := by
    show (Nat.repr n).data.length = (natChars n).length
    rw [hdata]
  have hle : (natChars n).length ≤ k := natChars_len_le k n hk h
  by_cases hc : k ≤ (Nat.repr n).length
  · rw [padStart0, if_pos hc]
    constructor
    · rw [hdata]
      omega
    · rw [hdata]
      exact natChars_digits n
  · rw [padStart0, if_neg hc]
    have hmk : (String.mk (List.replicate (k - (Nat.repr n).length) '0') ++ Nat.repr n).data =
        List.replicate (k - (Nat.repr n).length) '0' ++ (Nat.repr n).data :=
      String.data_append _ _
    rw [hmk]
    constructor
    · rw [List.length_append, List.length_replicate, hdata]
      omega
    · intro c hcm
      rcases List.mem_append.mp hcm with h2 | h2
      · rw [List.eq_of_mem_replicate h2]
        decide
      · rw [hdata] at h2
        exact natChars_digits n c h2

/-- Sale number candidates built from a date with a four-digit year,
two-digit month and day widths, and a suffix below one thousand always match
the RF, eight date digits, three suffix digits shape. -/
theorem mkSaleNumber_format (d : SaleDate) (r : Nat) (hd : dateOK d) (hr : r < 1000) :
    saleNumberFormatOk (mkSaleNumber d r) = true := by
  obtain ⟨hy1, hy2, hm, hdd⟩ := hd
  have hRF : ("RF" : String).data = ['R', 'F'] := rfl
  have hylen : (natChars d.year).length = 4 := by
    refine natChars_len 3 d.year ?_ ?_ <;> norm_num <;> omega
  have hmon := padStart0_repr 2 d.month (by omega) (by norm_num; omega)
  have hday := padStart0_repr 2 d.day (by omega) (by norm_num; omega)
  have hrnd := padStart0_repr 3 r (by omega) (by norm_num; omega)
  have hshape : (mkSaleNumber d r).data =
      'R' :: 'F' :: (natChars d.year ++ ((padStart0 2 (Nat.repr d.month)).data ++
        ((padStart0 2 (Nat.repr d.day)).data ++ (padStart0 3 (Nat.repr r)).data))) := by
    rw [mkSaleNumber]
    rw [String.data_append, String.data_append, String.data_append, String.data_append]
    rw [hRF, toString_nat_eq, nat_repr_data, toString_nat_eq d.month, toString_nat_eq d.day,
      toString_nat_eq r]
    simp [List.append_assoc]
  simp only [saleNumberFormatOk, Bool.and_eq_true, beq_iff_eq, List.all_eq_true]
  refine ⟨⟨?_, ?_⟩, ?_⟩
  · rw [hshape]
    simp only [List.length_cons, List.length_append, hylen, hmon.1, hday.1, hrnd.1]
  · rw [hshape]
    rfl
  · rw [hshape]
    intro c hc
    simp only [List.drop_succ_cons, List.drop_zero] at hc
    rcases List.mem_append.mp hc with h2 | h2
    · exact natChars_digits d.year c h2
    · rcases List.mem_append.mp h2 with h3 | h3
      · exact hmon.2 c h3
      · rcases List.mem_append.mp h3 with h4 | h4
        · exact hday.2 c h4
        · exact hrnd.2 c h4

/-- C6: every sale number the handler produces matches RF followed by eight
date digits and three suffix digits, given a date with a four-digit year and
suffix draws below one thousand; and in every state reachable by the
sequential sale workflow no two persisted sales share a sale number. -/
theorem c6_sale_number_format_unique :
    (∀ (st : Store) (req : SaleReq) (u : Nat) (d : SaleDate) (rand : Nat → Nat),
      dateOK d → (∀ i, rand i < 1000) →
      ∀ s ∈ (createSale st req u d rand).store.sales,
        s ∈ st.sales ∨ saleNumberFormatOk s.saleNumber = true) ∧
    (∀ st : Store, Reachable st →
      st.sales.Pairwise (fun a b => a.saleNumber ≠ b.saleNumber)) := by
  constructor
  · intro st req u d rand hd hr s hs
    rcases createSale_sales_shape st req u d rand with h | ⟨s0, heq, hnum, _, _, _, _⟩
    · rw [h] at hs
      exact Or.inl hs
    · rw [heq] at hs
      rcases List.mem_append.mp hs with h2 | h2
      · exact Or.inl h2
      · simp only [List.mem_singleton] at h2
        subst h2
        right
        obtain ⟨i, hi⟩ := saleNumberLoop_shape st.sales d rand 10 0
        rw [hnum, hi]
        exact mkSaleNumber_format d (rand i) hd (hr i)
  · intro st hreach
    induction hreach with
    | init st hs =>
      rw [hs]
      exact List.Pairwise.nil
    | sale st req u d rand hre ih =>
      rcases createSale_sales_shape st req u d rand with h | ⟨s0, heq, _, _, _, hfresh, _⟩
      · rw [h]
        exact ih
      · rw [heq, List.pairwise_append]
        refine ⟨ih, List.pairwise_singleton _ _, ?_⟩
        intro a ha b hb
        simp only [List.mem_singleton] at hb
        subst hb
        have := List.find?_eq_none.mp (Option.isNone_iff_eq_none.mp hfresh) a ha
        simpa using this
    | admin st ps hre ih => exact ih

/-- Witness for C6: the store after a concrete sale holds only well-formed
sale numbers, and the empty starting store is reachable with pairwise
distinct sale numbers. -/
theorem c6_witness :
    (createSale fxStore fxReqOne 7 fxDate (fun _ => 42)).store.sales.all
      (fun s => saleNumberFormatOk s.saleNumber) = true ∧
    fxStore.sales.Pairwise (fun a b => a.saleNumber ≠ b.saleNumber) := by
  constructor
  · have h := c6_sale_number_format_unique.1 fxStore fxReqOne 7 fxDate (fun _ => 42)
      (by refine ⟨?_, ?_, ?_, ?_⟩ <;> norm_num [fxDate]) (fun i => by norm_num)
    rw [List.all_eq_true]
    intro s hs
    rcases h s hs with h2 | h2
    · exact absurd h2 (List.not_mem_nil s)
    · exact h2
  · exact c6_sale_number_format_unique.2 fxStore (Reachable.init fxStore rfl)
